import Mathlib

/-!
# Movies console application: command interpreter, query builder and catalog writer

A shallow embedding of `main.go`.  Strings are Lean strings (sequences of
Unicode code points, which is what Go's `for _, char := range input` yields on
well-formed UTF-8 input), Go `int` values are `Int`, nullable SQL columns and
nil-able pointers are `Option`, and the PostgreSQL database is an explicit
value of type `Store` holding the three tables as lists of rows.
-/

namespace MoviesApp

/-! ## Command interpreter: `parseArgs` (main.go 756-789) -/

/-- Loop state of `parseArgs`: the arguments collected so far (`args`), the
contents of the `strings.Builder` (`currentArg`) and the `inQuotes` flag. -/
structure ParseState where
  args : List String
  currentArg : List Char
  inQuotes : Bool
deriving DecidableEq, Repr

/-- One iteration of the `for _, char := range input` loop of `parseArgs`:
the `switch char` with its cases space, double quote and default. -/
def parseArgsStep (st : ParseState) (char : Char) : ParseState :=
  if char = ' ' then
    if st.inQuotes then
      { st with currentArg := st.currentArg ++ [char] }
    else if st.currentArg.length > 0 then
      { st with args := st.args ++ [String.mk st.currentArg], currentArg := [] }
    else st
  else if char = '"' then
    { st with inQuotes := !st.inQuotes }
  else
    { st with currentArg := st.currentArg ++ [char] }

/-- The code after the loop of `parseArgs`: the last argument is added when
the builder is not empty. -/
def parseArgsFinish (st : ParseState) : List String :=
  if st.currentArg.length > 0 then st.args ++ [String.mk st.currentArg] else st.args

/-- Scanning a sequence of characters from a given loop state. -/
def parseArgsLoop (st : ParseState) (chars : List Char) : ParseState :=
  chars.foldl parseArgsStep st

/-- The function `parseArgs` of main.go. -/
def parseArgs (input : String) : List String :=
  parseArgsFinish (parseArgsLoop ⟨[], [], false⟩ input.data)

/-! ## Command interpreter: `parseCommand` (main.go 791-901) -/

/-- What a call of `parseCommand` ends in.  Every path through the function
either prints one message and returns, panics inside `regexp.MustCompile`, or
calls exactly one of the five operations. -/
inductive Action where
  | print (text : String)
  | regexPanic (pattern : String)
  | listMovies (titleRegex directorRegex actorRegex : Option String) (orderBy : String)
  | listMoviesVerbose (titleRegex directorRegex actorRegex : Option String) (orderBy : String)
  | addPerson
  | addMovie
  | deletePerson
deriving DecidableEq, Repr

/-- The action runs a listing query (`listMovies` or `listMoviesVerbose`). -/
def Action.isListing : Action → Bool
  | .listMovies _ _ _ _ => true
  | .listMoviesVerbose _ _ _ _ => true
  | _ => false

/-- The action calls one of the five operations that touch the database. -/
def Action.callsOperation : Action → Bool
  | .print _ => false
  | .regexPanic _ => false
  | _ => true

/-- The local variables of the `case "l"` branch: `verbose`, the three
compiled patterns (a `*regexp.Regexp` is kept as its source text, which is
what `Regexp.String()` returns; `nil` is `none`) and `orderBy`. -/
structure ListFlags where
  verbose : Bool
  titleRegex : Option String
  directorRegex : Option String
  actorRegex : Option String
  orderBy : String
deriving DecidableEq, Repr

/-- Go's `strings.Trim(s, "\"")`: all leading and trailing double quotes are
removed. -/
def trimQuotes (s : String) : String :=
  String.mk (((s.data.dropWhile (fun c => c = '"')).reverse.dropWhile
    (fun c => c = '"')).reverse)

/-- The pattern argument as the flag loop prepares it: when it starts and ends
with a double quote (`strings.HasPrefix` and `strings.HasSuffix`) the
surrounding quotes are trimmed. -/
def stripSurroundingQuotes (s : String) : String :=
  if s.data.head? = some '"' ∧ s.data.getLast? = some '"' then trimQuotes s else s

/-- The flag loop `for i := 1; i < len(args); i++` of the `case "l"` branch,
run on the arguments not yet read.  `compiles` tells whether
`regexp.MustCompile` accepts a pattern (it panics otherwise).  The result is
the final value of the local variables, or the action the loop stopped with. -/
def parseListFlags (compiles : String → Bool) :
    List String → ListFlags → Except Action ListFlags
  | [], st => .ok st
  | [arg], st =>
    if arg = "-v" then .ok { st with verbose := true }
    else if arg = "-t" then .error (.print "Error: Missing regex for -t.\n")
    else if arg = "-d" then .error (.print "Error: Missing director name for -d.\n")
    else if arg = "-a" then .error (.print "Error: Missing regex for -a.\n")
    else if arg = "-la" then
      if st.orderBy = "length_desc" then
        .error (.print "Error: Both -la and -ld cannot be used together.\n")
      else .ok { st with orderBy := "length_asc" }
    else if arg = "-ld" then
      if st.orderBy = "length_asc" then
        .error (.print "Error: Both -la and -ld cannot be used together.\n")
      else .ok { st with orderBy := "length_desc" }
    else .error (.print ("Unknown flag: " ++ arg ++ "\n"))
  | arg :: next :: rest, st =>
    if arg = "-v" then parseListFlags compiles (next :: rest) { st with verbose := true }
    else if arg = "-t" then
      let titleName := stripSurroundingQuotes next
      if compiles titleName then
        parseListFlags compiles rest { st with titleRegex := some titleName }
      else .error (.regexPanic titleName)
    else if arg = "-d" then
      let directorName := stripSurroundingQuotes next
      if compiles directorName then
        parseListFlags compiles rest { st with directorRegex := some directorName }
      else .error (.regexPanic directorName)
    else if arg = "-a" then
      let actorName := stripSurroundingQuotes next
      if compiles actorName then
        parseListFlags compiles rest { st with actorRegex := some actorName }
      else .error (.regexPanic actorName)
    else if arg = "-la" then
      if st.orderBy = "length_desc" then
        .error (.print "Error: Both -la and -ld cannot be used together.\n")
      else parseListFlags compiles (next :: rest) { st with orderBy := "length_asc" }
    else if arg = "-ld" then
      if st.orderBy = "length_asc" then
        .error (.print "Error: Both -la and -ld cannot be used together.\n")
      else parseListFlags compiles (next :: rest) { st with orderBy := "length_desc" }
    else .error (.print ("Unknown flag: " ++ arg ++ "\n"))

/-- The body of `parseCommand` after tokenization: the dispatch on `args[0]`. -/
def parseCommandArgs (compiles : String → Bool) (args : List String) : Action :=
  match args with
  | [] => .print "Invalid command. Please enter a valid command.\n"
  | command :: rest =>
    if command = "l" then
      match parseListFlags compiles rest ⟨false, none, none, none, "title"⟩ with
      | .error a => a
      | .ok f =>
        if f.verbose then
          .listMoviesVerbose f.titleRegex f.directorRegex f.actorRegex f.orderBy
        else
          .listMovies f.titleRegex f.directorRegex f.actorRegex f.orderBy
    else if command = "a" then
      match rest with
      | [] => .print "Unknown or unsupported 'a' command.\n"
      | sub :: _ =>
        if sub = "-p" then .addPerson
        else if sub = "-m" then .addMovie
        else .print "Unknown or unsupported 'a' command.\n"
    else if command = "d" then
      match rest with
      | [] => .print "Unknown or unsupported 'd' command.\n"
      | sub :: _ =>
        if sub = "-p" then .deletePerson
        else .print "Unknown or unsupported 'd' command.\n"
    else .print ("Unknown command: " ++ command ++ "\n")

/-- The function `parseCommand` of main.go, as the action it ends in. -/
def parseCommand (compiles : String → Bool) (input : String) : Action :=
  parseCommandArgs compiles (parseArgs input)

/-- The arguments of a list command that the flag loop reads as flags: the
argument following `-t`, `-d` or `-a` is that flag's pattern and is skipped. -/
def flagTokens : List String → List String
  | [] => []
  | [arg] => [arg]
  | arg :: next :: rest =>
    if arg = "-t" ∨ arg = "-d" ∨ arg = "-a" then arg :: flagTokens rest
    else arg :: flagTokens (next :: rest)

/-- A pattern made only of ASCII letters, digits, spaces and hyphens.  Such a
pattern has no regular-expression metacharacter, so `regexp.MustCompile`
accepts it. -/
def plainPattern (pattern : String) : Bool :=
  pattern.data.all (fun c => c.isAlphanum || c = ' ' || c = '-')

/-! ## Query builder (main.go 564-614, 634-684, 708-732) -/

/-- The raw string literal `query` starts from in `listMovies` and in
`listMoviesVerbose` (the two literals are the same text). -/
def listMoviesBaseQuery : String :=
  "\n\t\tSELECT\n\t\t\tm.title,\n\t\t\tp.name AS director,\n\t\t\tm.release_year,\n\t\t\tm.length_minutes\n\t\tFROM\n\t\t\tmovies m\n\t\tJOIN\n\t\t\tpeople p ON m.director_id = p.id\n\t"

/-- The raw string literal `query` starts from in `displayActorsForMovie`. -/
def displayActorsBaseQuery : String :=
  "\n\t\tSELECT\n\t\t\tp.name,\n\t\t\tCOALESCE(EXTRACT(YEAR FROM age(DATE ($1 || '-01-01'), TO_DATE(p.birth_year::TEXT, 'YYYY'))), 0) AS age\n\t\tFROM\n\t\t\tpeople p\n\t\tJOIN\n\t\t\tmovie_actors ma ON p.id = ma.actor_id\n\t\tJOIN\n\t\t\tmovies m ON ma.movie_id = m.id\n\t\tWHERE\n\t\t\tm.title = $2\n\t"

/-- The `switch orderBy` that ends the query of `listMovies` and
`listMoviesVerbose`. -/
def orderByClause (orderBy : String) : String :=
  if orderBy = "length_asc" then " ORDER BY m.length_minutes ASC, m.title"
  else if orderBy = "length_desc" then " ORDER BY m.length_minutes DESC, m.title"
  else " ORDER BY m.title"

/-- The locals `filters`, `params` and `paramIndex` of the query builder. -/
structure FilterState where
  filters : List String
  params : List String
  paramIndex : Nat
deriving DecidableEq, Repr

/-- The three `if ...Regex != nil` blocks of `listMovies`, run from
`paramIndex := 1` with empty `filters` and `params`. -/
def listMoviesFilters (titleRegex directorRegex actorRegex : Option String) : FilterState :=
  let st : FilterState := ⟨[], [], 1⟩
  let st : FilterState :=
    match titleRegex with
    | some t => ⟨st.filters ++ ["m.title ~ $" ++ toString st.paramIndex],
                 st.params ++ [t], st.paramIndex + 1⟩
    | none => st
  let st : FilterState :=
    match directorRegex with
    | some d => ⟨st.filters ++ ["p.name ~ $" ++ toString st.paramIndex],
                 st.params ++ [d], st.paramIndex + 1⟩
    | none => st
  let st : FilterState :=
    match actorRegex with
    | some a =>
      ⟨st.filters ++ ["EXISTS (SELECT 1 FROM movie_actors ma JOIN people pa ON ma.actor_id = pa.id WHERE ma.movie_id = m.id AND pa.name ~ $" ++ toString st.paramIndex ++ ")"],
       st.params ++ [a], st.paramIndex + 1⟩
    | none => st
  st

/-- The query text and the bound parameters `listMovies` passes to
`db.Query(query, params...)`. -/
def listMoviesQuery (titleRegex directorRegex actorRegex : Option String)
    (orderBy : String) : String × List String :=
  let st := listMoviesFilters titleRegex directorRegex actorRegex
  let query := listMoviesBaseQuery
  let query :=
    if st.filters.length > 0 then query ++ " WHERE " ++ " AND ".intercalate st.filters
    else query
  let query := query ++ orderByClause orderBy
  (query, st.params)

/-- The three `if ...Regex != nil` blocks of `listMoviesVerbose`. -/
def listMoviesVerboseFilters (titleRegex directorRegex actorRegex : Option String) :
    FilterState :=
  let st : FilterState := ⟨[], [], 1⟩
  let st : FilterState :=
    match titleRegex with
    | some t => ⟨st.filters ++ ["m.title ~ $" ++ toString st.paramIndex],
                 st.params ++ [t], st.paramIndex + 1⟩
    | none => st
  let st : FilterState :=
    match directorRegex with
    | some d => ⟨st.filters ++ ["p.name ~ $" ++ toString st.paramIndex],
                 st.params ++ [d], st.paramIndex + 1⟩
    | none => st
  let st : FilterState :=
    match actorRegex with
    | some a =>
      ⟨st.filters ++ ["EXISTS (SELECT 1 FROM movie_actors ma JOIN people pa ON ma.actor_id = pa.id WHERE ma.movie_id = m.id AND pa.name ~ $" ++ toString st.paramIndex ++ ")"],
       st.params ++ [a], st.paramIndex + 1⟩
    | none => st
  st

/-- The query text and the bound parameters `listMoviesVerbose` passes to
`db.Query(query, params...)`. -/
def listMoviesVerboseQuery (titleRegex directorRegex actorRegex : Option String)
    (orderBy : String) : String × List String :=
  let st := listMoviesVerboseFilters titleRegex directorRegex actorRegex
  let query := listMoviesBaseQuery
  let query :=
    if st.filters.length > 0 then query ++ " WHERE " ++ " AND ".intercalate st.filters
    else query
  let query := query ++ orderByClause orderBy
  (query, st.params)

/-- The query text and the bound parameters of `displayActorsForMovie`: the
release year is `$1` (sent as its decimal text), the movie title `$2` and,
when an actor pattern is given, its text `$3`. -/
def displayActorsQuery (movieTitle : String) (releaseYear : Int)
    (actorRegex : Option String) : String × List String :=
  match actorRegex with
  | some a =>
    (displayActorsBaseQuery ++ " AND p.name ~ $3", [toString releaseYear, movieTitle, a])
  | none => (displayActorsBaseQuery, [toString releaseYear, movieTitle])

/-- The predicate text of the title filter at placeholder number `i`. -/
def titlePredicate (i : Nat) : String := "m.title ~ $" ++ toString i

/-- The predicate text of the director filter at placeholder number `i`. -/
def directorPredicate (i : Nat) : String := "p.name ~ $" ++ toString i

/-- The predicate text of the actor filter at placeholder number `i`: an
EXISTS sub-query over `movie_actors` and `people`. -/
def actorPredicate (i : Nat) : String :=
  "EXISTS (SELECT 1 FROM movie_actors ma JOIN people pa ON ma.actor_id = pa.id WHERE ma.movie_id = m.id AND pa.name ~ $" ++ toString i ++ ")"

/-- The present patterns in the order title, director, actor, each with the
predicate it stands for. -/
def presentPatterns (titleRegex directorRegex actorRegex : Option String) :
    List ((Nat → String) × String) :=
  (titleRegex.map (fun t => (titlePredicate, t))).toList
    ++ (directorRegex.map (fun d => (directorPredicate, d))).toList
    ++ (actorRegex.map (fun a => (actorPredicate, a))).toList

/-- The WHERE clause as the specification describes it: one predicate per
present pattern, in the order title, director, actor, the `i`-th of them
(counting from 1) using placeholder `$i`, joined by ` AND `; no clause at all
when no pattern is present. -/
def specWhereClause (titleRegex directorRegex actorRegex : Option String) : String :=
  let present := presentPatterns titleRegex directorRegex actorRegex
  if present.length = 0 then ""
  else " WHERE " ++ " AND ".intercalate
    ((List.range present.length).zipWith (fun i p => p.1 (i + 1)) present)

/-- The bound parameter list as the specification describes it: the texts of
the present patterns, in the order title, director, actor. -/
def specParams (titleRegex directorRegex actorRegex : Option String) : List String :=
  (presentPatterns titleRegex directorRegex actorRegex).map (fun p => p.2)

/-! ## Output formatting (main.go 630, 700, 747-752) -/

/-- Go's `%02d` on an `int`: the decimal digits, zero-padded to width two; for
a negative number the sign takes one of the two columns. -/
def fmt02d (n : Int) : String :=
  if n < 0 then
    "-" ++ String.mk (List.replicate (1 - (toString n.natAbs).length) '0') ++ toString n.natAbs
  else
    String.mk (List.replicate (2 - (toString n.toNat).length) '0') ++ toString n.toNat

/-- The line `listMovies` (and `listMoviesVerbose`) prints for one result row:
`fmt.Printf("%s by %s in %d, %02d:%02d\n", title, director, year, length/60,
length%60)`.  Go's `/` and `%` on `int` truncate toward zero. -/
def movieLine (title director : String) (year length : Int) : String :=
  title ++ " by " ++ director ++ " in " ++ toString year ++ ", "
    ++ fmt02d (length.tdiv 60) ++ ":" ++ fmt02d (length.tmod 60) ++ "\n"

/-- The `age` column of the query of `displayActorsForMovie`,
`COALESCE(EXTRACT(YEAR FROM age(DATE ($1 || '-01-01'),
TO_DATE(p.birth_year::TEXT, 'YYYY'))), 0)`: both dates are 1 January, so the
interval between them is a whole number of years, the release year minus the
birth year; a NULL birth year makes the inner expression NULL and `COALESCE`
turns it into 0.  (Years are taken to be years PostgreSQL accepts in a date.) -/
def ageColumn (releaseYear : Int) (birth_year : Option Int) : Int :=
  match birth_year with
  | some b => releaseYear - b
  | none => 0

/-- The line `displayActorsForMovie` prints for one result row `(actor, age)`:
the `if age == 0` of main.go 747-752. -/
def actorLine (actor : String) (age : Int) : String :=
  if age = 0 then "        - " ++ actor ++ " (birth year missing)\n"
  else "        - " ++ actor ++ " at age " ++ toString age ++ "\n"

/-- The line `displayActorsForMovie` prints for an actor with the given
`birth_year` column under a movie with the given release year. -/
def displayActorLine (releaseYear : Int) (actor : String) (birth_year : Option Int) :
    String :=
  actorLine actor (ageColumn releaseYear birth_year)

/-! ## The relational store (main.go 59-109) -/

/-- A row of table `people`. -/
structure Person where
  id : Nat
  name : String
  birth_year : Option Int
deriving DecidableEq, Repr

/-- A row of table `movies`.  The columns `director_id`, `release_year` and
`length_minutes` are nullable in the schema, but every INSERT of the program
supplies them (and the tables are dropped and created anew at start-up), so
they are kept as plain values. -/
structure Movie where
  id : Nat
  title : String
  director_id : Nat
  release_year : Int
  length_minutes : Int
deriving DecidableEq, Repr

/-- A row of table `movie_actors`: a cast link. -/
structure MovieActor where
  movie_id : Nat
  actor_id : Nat
deriving DecidableEq, Repr

/-- The database: the rows of the three tables. -/
structure Store where
  people : List Person
  movies : List Movie
  movie_actors : List MovieActor
deriving DecidableEq, Repr

/-- The constraints `setupDatabase` declares and PostgreSQL enforces: primary
keys, the UNIQUE constraints and the foreign keys. -/
structure Store.WellFormed (s : Store) : Prop where
  people_pkey : (s.people.map (fun p => p.id)).Nodup
  people_name_key : (s.people.map (fun p => p.name)).Nodup
  movies_pkey : (s.movies.map (fun m => m.id)).Nodup
  movies_title_director_key : (s.movies.map (fun m => (m.title, m.director_id))).Nodup
  movies_director_fkey : ∀ m ∈ s.movies, m.director_id ∈ s.people.map (fun p => p.id)
  movie_actors_pkey : s.movie_actors.Nodup
  movie_actors_movie_fkey :
    ∀ ma ∈ s.movie_actors, ma.movie_id ∈ s.movies.map (fun m => m.id)
  movie_actors_actor_fkey :
    ∀ ma ∈ s.movie_actors, ma.actor_id ∈ s.people.map (fun p => p.id)

/-- The errors a statement of the program can come back with. -/
inductive DbError where
  | noRows
  | valueTooLong
  | integerOutOfRange (value : Int)
  | foreignKeyOnDelete (table fkey referencing : String)
  | foreignKeyOnInsert (table fkey : String)
  | uniqueViolation (key : String)
deriving DecidableEq, Repr

/-- The text `%v` prints for an error: `sql.ErrNoRows`, or the server's
message as the driver reports it. -/
def DbError.text : DbError → String
  | .noRows => "sql: no rows in result set"
  | .valueTooLong => "pq: value too long for type character varying(255)"
  | .integerOutOfRange v =>
    "pq: value \"" ++ toString v ++ "\" is out of range for type integer"
  | .foreignKeyOnDelete t k r =>
    "pq: update or delete on table \"" ++ t ++ "\" violates foreign key constraint \""
      ++ k ++ "\" on table \"" ++ r ++ "\""
  | .foreignKeyOnInsert t k =>
    "pq: insert or update on table \"" ++ t ++ "\" violates foreign key constraint \""
      ++ k ++ "\""
  | .uniqueViolation k =>
    "pq: duplicate key value violates unique constraint \"" ++ k ++ "\""

/-- `QueryRow(...).Scan(&x)` on the rows a statement returns: the first row,
or `sql.ErrNoRows` when the statement returns no row. -/
def queryRowScan {α : Type} : List α → Except DbError α
  | [] => .error .noRows
  | x :: _ => .ok x

/-- The values of a `people` row fit the column types `VARCHAR(255)` and
`INT`; the error PostgreSQL reports otherwise. -/
def checkPersonValues (name : String) (birth_year : Option Int) : Option DbError :=
  match birth_year with
  | some y =>
    if y < -2147483648 ∨ 2147483647 < y then some (.integerOutOfRange y)
    else if name.length > 255 then some .valueTooLong else none
  | none => if name.length > 255 then some .valueTooLong else none

/-- `SELECT id FROM people WHERE name = $1`: the ids of the matching rows. -/
def selectPersonIdByName (s : Store) (name : String) : List Nat :=
  (s.people.filter (fun p => p.name = name)).map (fun p => p.id)

/-- `SELECT COUNT(*) FROM movies WHERE director_id = $1`. -/
def countMoviesDirectedBy (s : Store) (personID : Nat) : Nat :=
  (s.movies.filter (fun m => m.director_id = personID)).length

/-- `SELECT m.title, m.release_year FROM movies m JOIN movie_actors ma ON
m.id = ma.movie_id WHERE ma.actor_id = $1`. -/
def selectMoviesOfActor (s : Store) (personID : Nat) : List (String × Int) :=
  s.movies.flatMap (fun m =>
    (s.movie_actors.filter (fun ma => m.id = ma.movie_id ∧ ma.actor_id = personID)).map
      (fun _ => (m.title, m.release_year)))

/-- `DELETE FROM movie_actors WHERE actor_id = $1`.  No table references
`movie_actors`, so the statement cannot violate a constraint. -/
def deleteMovieActorsOfActor (s : Store) (personID : Nat) : Store :=
  { s with movie_actors := s.movie_actors.filter (fun ma => ma.actor_id ≠ personID) }

/-- `DELETE FROM people WHERE id = $1`.  The statement fails when a row of
`movies` or of `movie_actors` still references the person. -/
def deletePersonRow (s : Store) (personID : Nat) : Except DbError Store :=
  if s.movies.any (fun m => m.director_id = personID) then
    .error (.foreignKeyOnDelete "people" "movies_director_id_fkey" "movies")
  else if s.movie_actors.any (fun ma => ma.actor_id = personID) then
    .error (.foreignKeyOnDelete "people" "movie_actors_actor_id_fkey" "movie_actors")
  else .ok { s with people := s.people.filter (fun p => p.id ≠ personID) }

/-! ## Catalog writer: `deletePerson` (main.go 313-410) -/

/-- The report `deletePerson` prints after a successful deletion
(main.go 400-409). -/
def deletionReport (name : String) (movies : List String) : List String :=
  ("Successfully deleted '" ++ name ++ "' from the database.\n") ::
    (if movies.length > 0 then
      "They were removed from the following movies:\n" ::
        movies.map (fun movie => "  - " ++ movie ++ "\n")
    else ["They were not associated with any movies.\n"])

/-- The function `deletePerson` of main.go.  `name` is the line read from
standard input after `strings.TrimSpace`.  The result is the store afterwards
and what was printed, one entry per print call.  The statements are run on
the store model, which has no connection failures. -/
def deletePerson (s : Store) (name : String) : Store × List String :=
  let prompt := "Enter the name of the person to delete: "
  if name = "" then (s, [prompt, "Error: Name cannot be empty.\n"])
  else
    match queryRowScan (selectPersonIdByName s name) with
    | .error .noRows => (s, [prompt, "Person '" ++ name ++ "' not found in the database.\n"])
    | .error err =>
      (s, [prompt, "Error checking for person '" ++ name ++ "': " ++ err.text ++ "\n"])
    | .ok personID =>
      let directorCount := countMoviesDirectedBy s personID
      if directorCount > 0 then
        (s, [prompt, "Cannot delete '" ++ name
          ++ "' as they are a director of one or more movies.\n"])
      else
        let movies := (selectMoviesOfActor s personID).map
          (fun row => row.1 ++ " (" ++ toString row.2 ++ ")")
        -- the transaction: both statements, or neither
        let tx := deleteMovieActorsOfActor s personID
        match deletePersonRow tx personID with
        | .error err =>
          (s, [prompt, "Error deleting person '" ++ name ++ "': " ++ err.text ++ "\n"])
        | .ok tx => (tx, prompt :: deletionReport name movies)

/-! ## Catalog writer: `addPerson` (main.go 412-463) -/

/-- The loop that asks for the year of birth (main.go 426-444).  `lines` are
the lines read from standard input after `strings.TrimSpace`; at end of input
`ReadString` returns the empty string.  `sscanInt` is
`fmt.Sscanf(input, "%d", &yearOfBirth)`: the number read, or `none` when it
reports an error.  The result is the final `yearOfBirth` and what was
printed. -/
def readYearOfBirth (sscanInt : String → Option Int) : List String → Int × List String
  | [] => (0, ["Enter year of birth (or press Enter to skip): "])
  | input :: rest =>
    if input = "" then (0, ["Enter year of birth (or press Enter to skip): "])
    else
      match sscanInt input with
      | some yearOfBirth =>
        if yearOfBirth ≤ 0 then
          let r := readYearOfBirth sscanInt rest
          (r.1, "Enter year of birth (or press Enter to skip): "
            :: "Error: Invalid year of birth. Please enter a valid number.\n" :: r.2)
        else (yearOfBirth, ["Enter year of birth (or press Enter to skip): "])
      | none =>
        let r := readYearOfBirth sscanInt rest
        (r.1, "Enter year of birth (or press Enter to skip): "
          :: "Error: Invalid year of birth. Please enter a valid number.\n" :: r.2)

/-- `INSERT INTO people (name, birth_year) VALUES ($1, $2) ON CONFLICT (name)
DO NOTHING RETURNING id`: the store afterwards and the rows returned.  On a
name conflict nothing is inserted and no row is returned.  `newId` is the
value the `SERIAL` column takes for a new row. -/
def insertPersonDoNothing (newId : Nat) (s : Store) (name : String)
    (birth_year : Option Int) : Except DbError (Store × List Nat) :=
  match checkPersonValues name birth_year with
  | some err => .error err
  | none =>
    if s.people.any (fun p => p.name = name) then .ok (s, [])
    else .ok ({ s with people := s.people ++ [⟨newId, name, birth_year⟩] }, [newId])

/-- The function `addPerson` of main.go.  `name` and `yearLines` are the lines
read from standard input after `strings.TrimSpace`.  The result is the store
afterwards and what was printed. -/
def addPerson (sscanInt : String → Option Int) (newId : Nat) (s : Store)
    (name : String) (yearLines : List String) : Store × List String :=
  let prompt := "Enter person's name: "
  if name = "" then (s, [prompt, "Error: Name cannot be empty. Please try again.\n"])
  else
    let asked := readYearOfBirth sscanInt yearLines
    let yearOfBirth := asked.1
    let birth_year : Option Int := if yearOfBirth > 0 then some yearOfBirth else none
    match insertPersonDoNothing newId s name birth_year with
    | .error err =>
      (s, prompt :: asked.2 ++ ["Error inserting person: " ++ err.text ++ "\n"])
    | .ok (s1, rows) =>
      match queryRowScan rows with
      | .error err =>
        (s1, prompt :: asked.2 ++ ["Error inserting person: " ++ err.text ++ "\n"])
      | .ok personID =>
        if personID = 0 then
          (s1, prompt :: asked.2 ++ ["Person '" ++ name ++ "' already exists in the database.\n"])
        else
          (s1, prompt :: asked.2 ++ ["Successfully added person: " ++ name
            ++ " (Birth Year: " ++ toString yearOfBirth ++ ")\n"])

/-! ## Catalog writer: the actor loop of `saveMovieToDB` (main.go 240-259) -/

/-- `INSERT INTO people (name, birth_year) VALUES ($1, $2) ON CONFLICT (name)
DO UPDATE SET birth_year=EXCLUDED.birth_year RETURNING id`: the store
afterwards and the rows returned.  On a name conflict the existing row takes
the birth year of the row proposed for insertion. -/
def upsertActor (newId : Nat) (s : Store) (actor : String) (birthYear : Option Int) :
    Except DbError (Store × List Nat) :=
  match checkPersonValues actor birthYear with
  | some err => .error err
  | none =>
    if s.people.any (fun p => p.name = actor) then
      .ok ({ s with people := s.people.map (fun p =>
              if p.name = actor then { p with birth_year := birthYear } else p) },
           selectPersonIdByName s actor)
    else .ok ({ s with people := s.people ++ [⟨newId, actor, birthYear⟩] }, [newId])

/-- `INSERT INTO movie_actors (movie_id, actor_id) VALUES ($1, $2) ON CONFLICT
DO NOTHING`. -/
def linkMovieActor (s : Store) (movieID actorID : Nat) : Except DbError Store :=
  if ¬ s.movies.any (fun m => m.id = movieID) then
    .error (.foreignKeyOnInsert "movie_actors" "movie_actors_movie_id_fkey")
  else if ¬ s.people.any (fun p => p.id = actorID) then
    .error (.foreignKeyOnInsert "movie_actors" "movie_actors_actor_id_fkey")
  else if s.movie_actors.any (fun ma => ma = ⟨movieID, actorID⟩) then .ok s
  else .ok { s with movie_actors := s.movie_actors ++ [⟨movieID, actorID⟩] }

/-- The birth year the actor loop binds to `$2`: valid only when
`fetchActorBirthYear` returned no error and a year other than 0. -/
def fetchedBirthYear (fetched : Except String Int) : Option Int :=
  match fetched with
  | .ok year => if year ≠ 0 then some year else none
  | .error _ => none

/-- One iteration of the loop `for _, actor := range movie.Cast` of
`saveMovieToDB`.  `fetched` is what `fetchActorBirthYear(actor)` returned.
The result is the store afterwards (the statements are not in a transaction)
and the error the iteration returns with, if any. -/
def saveMovieActor (newId : Nat) (s : Store) (movieID : Nat) (actor : String)
    (fetched : Except String Int) : Store × Option String :=
  let birthYear := fetchedBirthYear fetched
  match upsertActor newId s actor birthYear with
  | .error err => (s, some ("failed to insert actor: " ++ err.text))
  | .ok (s1, rows) =>
    match queryRowScan rows with
    | .error err => (s1, some ("failed to insert actor: " ++ err.text))
    | .ok actorID =>
      match linkMovieActor s1 movieID actorID with
      | .error err => (s1, some ("failed to link movie and actor: " ++ err.text))
      | .ok s2 => (s2, none)

/-- The birth year the store records for a name (that of the first row of
`people` with the name): `none` when no such person exists, `some none` when
the person exists with an unknown birth year. -/
def birthYearOf (s : Store) (name : String) : Option (Option Int) :=
  ((s.people.filter (fun p => p.name = name)).map (fun p => p.birth_year)).head?

/-- The number of movies a person is a cast member of: the movies that a
cast link ties to the person. -/
def castMembershipCount (s : Store) (personID : Nat) : Nat :=
  (s.movies.filter (fun m => decide ((⟨m.id, personID⟩ : MovieActor) ∈ s.movie_actors))).length

/-- A store in which Ann Director directs Test Film and Bob Actor is a cast
member of it. -/
def castStore : Store :=
  ⟨[⟨1, "Ann Director", none⟩, ⟨2, "Bob Actor", some 1980⟩],
   [⟨1, "Test Film", 1, 2020, 90⟩],
   [⟨1, 2⟩]⟩

/-- Two decimal digits: the tens digit and the units digit of a number. -/
def twoDigits (n : Nat) : String :=
  String.mk [Nat.digitChar (n / 10), Nat.digitChar (n % 10)]

/-! ## The ordering clause as the specification describes it -/

/-- The sort keys of the three ordering modes: ascending runtime, descending
runtime and, for every other mode string, the title alone. -/
def specOrderKeys (orderBy : String) : List String :=
  if orderBy = "length_asc" then ["m.length_minutes ASC", "m.title"]
  else if orderBy = "length_desc" then ["m.length_minutes DESC", "m.title"]
  else ["m.title"]

/-- The number of places at which `needle` occurs in `text`. -/
def occurrences (needle text : String) : Nat :=
  (text.data.tails.filter (fun t => needle.data.isPrefixOf t)).length

/-! ## Unknown commands and flags, as the specification describes them -/

/-- The flags of the list command. -/
def listFlagNames : List String := ["-v", "-t", "-d", "-a", "-la", "-ld"]

/-- The flag reading of a list command ends on a `-t`, `-d` or `-a` that is
the last argument, so that the flag has no pattern. -/
def missingPattern : List String → Bool
  | [] => false
  | [arg] => decide (arg = "-t" ∨ arg = "-d" ∨ arg = "-a")
  | arg :: next :: rest =>
    if arg = "-t" ∨ arg = "-d" ∨ arg = "-a" then missingPattern rest
    else missingPattern (next :: rest)

/-- The arguments hold an unknown command or, for the list command, an
unknown flag or a flag without its pattern: the first argument is not one of
`l`, `a`, `d`; or it is `l` and an argument read in flag position is not a
flag of the list command, or the last flag read is a `-t`, `-d` or `-a` with
nothing after it. -/
def UnknownCommandOrFlag (args : List String) : Prop :=
  match args with
  | [] => False
  | command :: rest =>
    (command ≠ "l" ∧ command ≠ "a" ∧ command ≠ "d")
    ∨ (command = "l"
        ∧ ((∃ x ∈ flagTokens rest, x ∉ listFlagNames) ∨ missingPattern rest = true))

/-- The patterns of a list command as the flag loop compiles them: the
argument that follows a `-t`, `-d` or `-a` read in flag position, with its
surrounding quotes stripped. -/
def patternTokens : List String → List String
  | [] => []
  | [_] => []
  | arg :: next :: rest =>
    if arg = "-t" ∨ arg = "-d" ∨ arg = "-a" then
      stripSurroundingQuotes next :: patternTokens rest
    else patternTokens (next :: rest)

/-- The ways the flag loop rejects the arguments `rest` of a list command,
entered with the given `orderBy`: the message on an argument read in flag
position that is not a flag; the message on a final `-t`, `-d` or `-a` without
pattern; the message on `-la` and `-ld` together, when both are read in flag
position (or one is, while `orderBy` already holds the other mode); or the
panic of `regexp.MustCompile` on a pattern of the line that it does not
accept. -/
def ListCommandRejection (compiles : String → Bool) (rest : List String) (orderBy : String)
    (a : Action) : Prop :=
  (∃ x ∈ flagTokens rest, x ∉ listFlagNames ∧ a = .print ("Unknown flag: " ++ x ++ "\n"))
  ∨ (missingPattern rest = true
      ∧ ((rest.getLast? = some "-t" ∧ a = .print "Error: Missing regex for -t.\n")
        ∨ (rest.getLast? = some "-d" ∧ a = .print "Error: Missing director name for -d.\n")
        ∨ (rest.getLast? = some "-a" ∧ a = .print "Error: Missing regex for -a.\n")))
  ∨ (a = .print "Error: Both -la and -ld cannot be used together.\n"
      ∧ (("-la" ∈ flagTokens rest ∧ (orderBy = "length_desc" ∨ "-ld" ∈ flagTokens rest))
        ∨ ("-ld" ∈ flagTokens rest ∧ (orderBy = "length_asc" ∨ "-la" ∈ flagTokens rest))))
  ∨ (∃ p ∈ patternTokens rest, compiles p = false ∧ a = .regexPanic p)

/-! ## Listing run on the store (main.go 614-631, 684-706, 734-753) -/

/-- A row of the listing query of `listMovies` and `listMoviesVerbose`:
`m.title`, `p.name AS director`, `m.release_year`, `m.length_minutes`. -/
structure MovieRow where
  title : String
  director : String
  year : Int
  length : Int
deriving DecidableEq, Repr

/-- The WHERE clause of the listing query on a movie `m` joined to its
director `p`: one condition per present pattern.  `regexMatch text pattern`
is PostgreSQL's `text ~ pattern`.  The actor condition is the EXISTS
sub-query over `movie_actors ma JOIN people pa ON ma.actor_id = pa.id` with
`ma.movie_id = m.id`. -/
def movieQualifies (regexMatch : String → String → Bool) (s : Store)
    (titleRegex directorRegex actorRegex : Option String) (m : Movie) (p : Person) : Bool :=
  (match titleRegex with
    | some t => regexMatch m.title t
    | none => true)
  && (match directorRegex with
    | some d => regexMatch p.name d
    | none => true)
  && (match actorRegex with
    | some a =>
      s.movie_actors.any (fun ma => s.people.any (fun pa =>
        decide (ma.actor_id = pa.id) && decide (ma.movie_id = m.id) && regexMatch pa.name a))
    | none => true)

/-- The ORDER BY clause on two rows: `x` may stand before `y`.  `collate a b`
is the order of the database on titles, `a ≤ b`. -/
def rowPrecedes (collate : String → String → Bool) (orderBy : String) (x y : MovieRow) :
    Bool :=
  if orderBy = "length_asc" then
    decide (x.length < y.length) || (decide (x.length = y.length) && collate x.title y.title)
  else if orderBy = "length_desc" then
    decide (y.length < x.length) || (decide (x.length = y.length) && collate x.title y.title)
  else collate x.title y.title

/-- The rows the listing query returns on a store: `movies m JOIN people p ON
m.director_id = p.id`, filtered by the WHERE clause and sorted by the ORDER BY
clause. -/
def selectMovieRows (regexMatch collate : String → String → Bool) (s : Store)
    (titleRegex directorRegex actorRegex : Option String) (orderBy : String) :
    List MovieRow :=
  List.insertionSort (fun x y => rowPrecedes collate orderBy x y = true)
    (s.movies.flatMap (fun m =>
      ((s.people.filter (fun p => m.director_id = p.id)).filter
        (fun p => movieQualifies regexMatch s titleRegex directorRegex actorRegex m p)).map
        (fun p => (⟨m.title, p.name, m.release_year, m.length_minutes⟩ : MovieRow))))

/-- The rows the query of `displayActorsForMovie` returns on a store: `people
p JOIN movie_actors ma ON p.id = ma.actor_id JOIN movies m ON ma.movie_id =
m.id WHERE m.title = $2`, with `AND p.name ~ $3` when an actor pattern is
given; each row is the name and the `age` column. -/
def selectActorsOfTitle (regexMatch : String → String → Bool) (s : Store)
    (movieTitle : String) (releaseYear : Int) (actorRegex : Option String) :
    List (String × Int) :=
  s.people.flatMap (fun p =>
    (s.movie_actors.filter (fun ma => p.id = ma.actor_id)).flatMap (fun ma =>
      ((s.movies.filter (fun m => decide (ma.movie_id = m.id) && decide (m.title = movieTitle))).filter
        (fun _ => match actorRegex with
          | some a => regexMatch p.name a
          | none => true)).map
        (fun _ => (p.name, ageColumn releaseYear p.birth_year))))

/-- The function `displayActorsForMovie` of main.go: the lines printed. -/
def displayActorsForMovie (regexMatch : String → String → Bool) (s : Store)
    (movieTitle : String) (releaseYear : Int) (actorRegex : Option String) : List String :=
  (selectActorsOfTitle regexMatch s movieTitle releaseYear actorRegex).map
    (fun row => actorLine row.1 row.2)

/-- The function `listMovies` of main.go: the lines printed. -/
def listMovies (regexMatch collate : String → String → Bool) (s : Store)
    (titleRegex directorRegex actorRegex : Option String) (orderBy : String) :
    List String :=
  (selectMovieRows regexMatch collate s titleRegex directorRegex actorRegex orderBy).map
    (fun row => movieLine row.title row.director row.year row.length)

/-- The function `listMoviesVerbose` of main.go: the lines printed.  After
the line of each movie and `    Starring:` come the lines of
`displayActorsForMovie(db, title, year, actorRegex)`. -/
def listMoviesVerbose (regexMatch collate : String → String → Bool) (s : Store)
    (titleRegex directorRegex actorRegex : Option String) (orderBy : String) :
    List String :=
  (selectMovieRows regexMatch collate s titleRegex directorRegex actorRegex orderBy).flatMap
    (fun row => movieLine row.title row.director row.year row.length
      :: "    Starring:\n"
      :: displayActorsForMovie regexMatch s row.title row.year actorRegex)

/-- The names `listMoviesVerbose` displays under a listed movie `m`. -/
def displayedActors (regexMatch : String → String → Bool) (s : Store) (m : Movie)
    (actorRegex : Option String) : List String :=
  (selectActorsOfTitle regexMatch s m.title m.release_year actorRegex).map (fun row => row.1)

/-- The names of the people a cast link ties to the movie `m`. -/
def linkedActors (s : Store) (m : Movie) : List String :=
  (s.people.filter
    (fun p => decide ((⟨m.id, p.id⟩ : MovieActor) ∈ s.movie_actors))).map (fun p => p.name)

/-- The order of titles by code points. -/
def codePointOrder (a b : String) : Bool :=
  decide (a.data.map Char.toNat ≤ b.data.map Char.toNat)

/-- A store with two movies of the same title by different directors, each
with one cast member. -/
def remakeStore : Store :=
  ⟨[⟨1, "First Director", none⟩, ⟨2, "Second Director", none⟩,
    ⟨3, "Early Actor", some 1959⟩, ⟨4, "Late Actor", some 1995⟩],
   [⟨1, "The Remake", 1, 1984, 137⟩, ⟨2, "The Remake", 2, 2021, 155⟩],
   [⟨1, 3⟩, ⟨2, 4⟩]⟩

/-! ## Lemmas on `parseArgs` -/

theorem parseArgsLoop_append (st : ParseState) (xs ys : List Char) :
    parseArgsLoop st (xs ++ ys) = parseArgsLoop (parseArgsLoop st xs) ys := by
  simp [parseArgsLoop, List.foldl_append]

/-- Arguments already collected are never touched again by the loop. -/
theorem parseArgsLoop_args_kept (chars : List Char) :
    ∀ (a b : List String) (c : List Char) (q : Bool),
      parseArgsLoop ⟨a ++ b, c, q⟩ chars =
        ⟨a ++ (parseArgsLoop ⟨b, c, q⟩ chars).args,
         (parseArgsLoop ⟨b, c, q⟩ chars).currentArg,
         (parseArgsLoop ⟨b, c, q⟩ chars).inQuotes⟩ := by
  induction chars with
  | nil => intro a b c q; simp [parseArgsLoop]
  | cons x xs ih =>
    intro a b c q
    have hstep : ∃ b2 c2 q2, parseArgsStep ⟨a ++ b, c, q⟩ x = ⟨a ++ b2, c2, q2⟩ ∧
        parseArgsStep ⟨b, c, q⟩ x = ⟨b2, c2, q2⟩ := by
      unfold parseArgsStep
      by_cases h1 : x = ' '
      · by_cases h2 : q = true
        · exact ⟨b, c ++ [x], q, by simp [h1, h2], by simp [h1, h2]⟩
        · by_cases h3 : c.length > 0
          · exact ⟨b ++ [String.mk c], [], q, by simp [h1, h2, h3], by simp [h1, h2, h3]⟩
          · exact ⟨b, c, q, by simp [h1, h2, h3], by simp [h1, h2, h3]⟩
      · by_cases h4 : x = '"'
        · exact ⟨b, c, !q, by simp [h4], by simp [h4]⟩
        · exact ⟨b, c ++ [x], q, by simp [h1, h4], by simp [h1, h4]⟩
    obtain ⟨b2, c2, q2, e1, e2⟩ := hstep
    have l1 : parseArgsLoop ⟨a ++ b, c, q⟩ (x :: xs) = parseArgsLoop ⟨a ++ b2, c2, q2⟩ xs := by
      simp [parseArgsLoop, List.foldl_cons, e1]
    have l2 : parseArgsLoop ⟨b, c, q⟩ (x :: xs) = parseArgsLoop ⟨b2, c2, q2⟩ xs := by
      simp [parseArgsLoop, List.foldl_cons, e2]
    rw [l1, l2]
    exact ih a b2 c2 q2

/-- Outside quotes, a stretch of input without a double quote leaves the loop
outside quotes. -/
theorem parseArgsLoop_noquote_unquoted (chars : List Char) (hq : '"' ∉ chars) :
    ∀ (a : List String) (c : List Char),
      (parseArgsLoop ⟨a, c, false⟩ chars).inQuotes = false := by
  induction chars with
  | nil => intro a c; simp [parseArgsLoop]
  | cons x xs ih =>
    intro a c
    have hx : x ≠ '"' := fun h => hq (by simp [h])
    have hxs : '"' ∉ xs := fun h => hq (by simp [h])
    have hstep : ∃ a2 c2, parseArgsStep ⟨a, c, false⟩ x = ⟨a2, c2, false⟩ := by
      unfold parseArgsStep
      by_cases h1 : x = ' '
      · by_cases h3 : c.length > 0
        · exact ⟨a ++ [String.mk c], [], by simp [h1, h3]⟩
        · exact ⟨a, c, by simp [h1, h3]⟩
      · exact ⟨a, c ++ [x], by simp [h1, hx]⟩
    obtain ⟨a2, c2, e⟩ := hstep
    have l1 : parseArgsLoop ⟨a, c, false⟩ (x :: xs) = parseArgsLoop ⟨a2, c2, false⟩ xs := by
      simp [parseArgsLoop, List.foldl_cons, e]
    rw [l1]
    exact ih hxs a2 c2

/-- Inside quotes, a stretch of input without a double quote is appended to
the builder verbatim, spaces included. -/
theorem parseArgsLoop_noquote_quoted (chars : List Char) (hq : '"' ∉ chars) :
    ∀ (a : List String) (c : List Char),
      parseArgsLoop ⟨a, c, true⟩ chars = ⟨a, c ++ chars, true⟩ := by
  induction chars with
  | nil => intro a c; simp [parseArgsLoop]
  | cons x xs ih =>
    intro a c
    have hx : x ≠ '"' := fun h => hq (by simp [h])
    have hxs : '"' ∉ xs := fun h => hq (by simp [h])
    have e : parseArgsStep ⟨a, c, true⟩ x = ⟨a, c ++ [x], true⟩ := by
      unfold parseArgsStep
      by_cases h1 : x = ' '
      · simp [h1]
      · simp [h1, hx]
    have l1 : parseArgsLoop ⟨a, c, true⟩ (x :: xs) = parseArgsLoop ⟨a, c ++ [x], true⟩ xs := by
      simp [parseArgsLoop, List.foldl_cons, e]
    rw [l1, ih hxs a (c ++ [x])]
    simp

/-- A space read outside quotes closes the pending argument: the state
afterwards holds exactly what `parseArgsFinish` would return, and an empty
builder. -/
theorem parseArgsStep_space_unquoted (a : List String) (c : List Char) :
    parseArgsStep ⟨a, c, false⟩ ' ' = ⟨parseArgsFinish ⟨a, c, false⟩, [], false⟩ := by
  unfold parseArgsStep parseArgsFinish
  by_cases h3 : c.length > 0
  · simp [h3]
  · have : c = [] := by
      cases c with
      | nil => rfl
      | cons y ys => simp at h3
    simp [this]

/-! ## Claims on `parseArgs` -/

/-- C1: for strings `pre`, `s`, `post` without a double quote and `s` non-empty,
`parseArgs (pre ++ " \"" ++ s ++ "\" " ++ post)` is
`parseArgs pre ++ [s] ++ parseArgs post`: the quoted span is one argument,
spaces included, with the quotes stripped. -/
theorem parseArgs_quoted_span (pre s post : String)
    (hpre : '"' ∉ pre.data) (hs : '"' ∉ s.data) (hpost : '"' ∉ post.data)
    (hne : s ≠ "") :
    parseArgs (pre ++ " \"" ++ s ++ "\" " ++ post)
      = parseArgs pre ++ [s] ++ parseArgs post := by
  have hdata : (pre ++ " \"" ++ s ++ "\" " ++ post).data
      = pre.data ++ (' ' :: '"' :: (s.data ++ ('"' :: ' ' :: post.data))) := by
    simp [String.data_append]
  have hsne : s.data.length > 0 := by
    cases hsd : s.data with
    | nil => exact absurd (String.ext hsd) hne
    | cons y ys => simp
  unfold parseArgs
  rw [hdata, parseArgsLoop_append]
  -- the state after `pre`
  have hq := parseArgsLoop_noquote_unquoted pre.data hpre [] []
  generalize parseArgsLoop ⟨[], [], false⟩ pre.data = st at hq ⊢
  obtain ⟨a, c, q⟩ := st
  simp only at hq
  subst hq
  have l1 : parseArgsLoop ⟨a, c, false⟩ (' ' :: '"' :: (s.data ++ ('"' :: ' ' :: post.data)))
      = parseArgsLoop ⟨parseArgsFinish ⟨a, c, false⟩, [], true⟩
          (s.data ++ ('"' :: ' ' :: post.data)) := by
    simp only [parseArgsLoop, List.foldl_cons, parseArgsStep_space_unquoted]
    rfl
  rw [l1, parseArgsLoop_append, parseArgsLoop_noquote_quoted s.data hs]
  have l2 : parseArgsLoop ⟨parseArgsFinish ⟨a, c, false⟩, [] ++ s.data, true⟩
        ('"' :: ' ' :: post.data)
      = parseArgsLoop ⟨(parseArgsFinish ⟨a, c, false⟩ ++ [s]) ++ [], [], false⟩ post.data := by
    have e1 : parseArgsStep ⟨parseArgsFinish ⟨a, c, false⟩, [] ++ s.data, true⟩ '"'
        = ⟨parseArgsFinish ⟨a, c, false⟩, s.data, false⟩ := by
      simp [parseArgsStep]
    have e2 : parseArgsStep ⟨parseArgsFinish ⟨a, c, false⟩, s.data, false⟩ ' '
        = ⟨(parseArgsFinish ⟨a, c, false⟩ ++ [s]) ++ [], [], false⟩ := by
      have hsl : ¬ s.length = 0 := Nat.pos_iff_ne_zero.mp hsne
      simp [parseArgsStep, hsl]
    simp only [parseArgsLoop, List.foldl_cons, e1, e2]
  rw [l2, parseArgsLoop_args_kept post.data]
  have hq2 := parseArgsLoop_noquote_unquoted post.data hpost [] []
  unfold parseArgsFinish
  simp only []
  by_cases h : (parseArgsLoop ⟨[], [], false⟩ post.data).currentArg.length > 0
  · simp [h]
  · simp [h]

/-- C1, witness: the input `l -t "Star Wars" -v` is tokenized as
`["l", "-t", "Star Wars", "-v"]`. -/
theorem parseArgs_quoted_span_witness :
    parseArgs ("l -t" ++ " \"" ++ "Star Wars" ++ "\" " ++ "-v")
        = parseArgs "l -t" ++ ["Star Wars"] ++ parseArgs "-v"
      ∧ parseArgs "l -t \"Star Wars\" -v" = ["l", "-t", "Star Wars", "-v"] :=
  ⟨parseArgs_quoted_span "l -t" "Star Wars" "-v" (by decide) (by decide) (by decide)
      (by decide), by decide⟩

/-! ## Lemmas on the store -/

/-- The lookup `SELECT id FROM people WHERE name = $1` read with
`QueryRow.Scan` returns the id of the first person with the name, and
`sql.ErrNoRows` when there is none. -/
theorem queryRowScan_ids_eq (l : List Person) (name : String) :
    queryRowScan ((l.filter (fun p => p.name = name)).map (fun p => p.id))
      = match l.find? (fun p => p.name = name) with
        | some p => .ok p.id
        | none => .error .noRows := by
  induction l with
  | nil => rfl
  | cons q qs ih =>
    by_cases h : q.name = name
    · simp [List.filter_cons, List.find?_cons, h, queryRowScan]
    · simp [List.filter_cons, List.find?_cons, h, ih]

theorem lookup_of_find (s : Store) (name : String) (p : Person)
    (h : s.people.find? (fun q => q.name = name) = some p) :
    queryRowScan (selectPersonIdByName s name) = .ok p.id := by
  unfold selectPersonIdByName
  rw [queryRowScan_ids_eq, h]

theorem lookup_of_find_none (s : Store) (name : String)
    (h : s.people.find? (fun q => q.name = name) = none) :
    queryRowScan (selectPersonIdByName s name) = .error .noRows := by
  unfold selectPersonIdByName
  rw [queryRowScan_ids_eq, h]

theorem countMoviesDirectedBy_pos (s : Store) (personID : Nat) (m : Movie)
    (hm : m ∈ s.movies) (hd : m.director_id = personID) :
    countMoviesDirectedBy s personID > 0 := by
  unfold countMoviesDirectedBy
  apply List.length_pos_of_mem (a := m)
  simp [List.mem_filter, hm, hd]

/-- The first line of a deletion report differs from every other message of
`deletePerson`: it is the only one that starts with `S`. -/
theorem successLine_ne (name rest : String) (c : Char) (hc : c ≠ 'S') :
    "Successfully deleted '" ++ name ++ "' from the database.\n"
      ≠ String.mk [c] ++ rest := by
  intro h
  have h2 := congrArg String.data h
  simp [String.data_append] at h2
  exact hc h2.1.symm

/-! ## Claims on `deletePerson` -/

/-- C2: when the name resolves to a person (the first row of `people` with
that name) who is the director of at least one movie, `deletePerson` leaves
the store exactly as it was and prints the rejection `Cannot delete '<name>'
as they are a director of one or more movies.` (for the empty name, which is
refused before the lookup, `Error: Name cannot be empty.`); it never prints
the confirmation of a deletion. -/
theorem deletePerson_director_rejected (s : Store) (name : String) (p : Person) (m : Movie)
    (hp : s.people.find? (fun q => q.name = name) = some p)
    (hm : m ∈ s.movies) (hd : m.director_id = p.id) :
    (deletePerson s name).1 = s
    ∧ (name ≠ "" → (deletePerson s name).2 =
        ["Enter the name of the person to delete: ",
         "Cannot delete '" ++ name ++ "' as they are a director of one or more movies.\n"])
    ∧ (name = "" → (deletePerson s name).2 =
        ["Enter the name of the person to delete: ", "Error: Name cannot be empty.\n"])
    ∧ "Successfully deleted '" ++ name ++ "' from the database.\n"
        ∉ (deletePerson s name).2 := by
  have hlook := lookup_of_find s name p hp
  have hcount := countMoviesDirectedBy_pos s p.id m hm hd
  by_cases hn : name = ""
  · have e : deletePerson s name
        = (s, ["Enter the name of the person to delete: ", "Error: Name cannot be empty.\n"]) := by
      simp [deletePerson, hn]
    rw [e]
    refine ⟨rfl, fun h => absurd hn h, fun _ => rfl, ?_⟩
    subst hn
    show "Successfully deleted '" ++ "" ++ "' from the database.\n"
      ∉ ["Enter the name of the person to delete: ", "Error: Name cannot be empty.\n"]
    decide
  · have e : deletePerson s name
        = (s, ["Enter the name of the person to delete: ",
               "Cannot delete '" ++ name
                 ++ "' as they are a director of one or more movies.\n"]) := by
      simp [deletePerson, hn, hlook, hcount]
    rw [e]
    refine ⟨rfl, fun _ => rfl, fun h => absurd h hn, ?_⟩
    intro hmem
    simp only [List.mem_cons, List.mem_singleton, List.not_mem_nil, or_false] at hmem
    rcases hmem with h | h
    · exact successLine_ne name "nter the name of the person to delete: " 'E' (by decide) h
    · exact successLine_ne name
        ("annot delete '" ++ name ++ "' as they are a director of one or more movies.\n")
        'C' (by decide) (by rw [h]; rfl)

/-- C2, witness: Ann Director directs Test Film; deleting her is rejected
and the store stays as it was. -/
theorem deletePerson_director_rejected_witness :
    (deletePerson ⟨[⟨1, "Ann Director", none⟩], [⟨1, "Test Film", 1, 2020, 90⟩], []⟩
        "Ann Director").1
      = ⟨[⟨1, "Ann Director", none⟩], [⟨1, "Test Film", 1, 2020, 90⟩], []⟩
    ∧ (deletePerson ⟨[⟨1, "Ann Director", none⟩], [⟨1, "Test Film", 1, 2020, 90⟩], []⟩
        "Ann Director").2
      = ["Enter the name of the person to delete: ",
         "Cannot delete 'Ann Director' as they are a director of one or more movies.\n"] :=
  have h := deletePerson_director_rejected
    ⟨[⟨1, "Ann Director", none⟩], [⟨1, "Test Film", 1, 2020, 90⟩], []⟩ "Ann Director"
    ⟨1, "Ann Director", none⟩ ⟨1, "Test Film", 1, 2020, 90⟩ (by decide) (by decide) rfl
  ⟨h.1, h.2.1 (by decide)⟩

/-! ## Lemmas for the deletion of an actor -/

/-- With unique cast links, the links of one movie and one actor number one
when the link exists and zero otherwise. -/
theorem linkCount_eq (links : List MovieActor) (hnd : links.Nodup) (movieID personID : Nat) :
    (links.filter (fun ma => movieID = ma.movie_id ∧ ma.actor_id = personID)).length
      = if (⟨movieID, personID⟩ : MovieActor) ∈ links then 1 else 0 := by
  have hf : links.filter (fun ma => decide (movieID = ma.movie_id ∧ ma.actor_id = personID))
      = links.filter (fun ma => ma == (⟨movieID, personID⟩ : MovieActor)) := by
    apply List.filter_congr
    intro ma _
    cases ma with
    | mk a b =>
      by_cases h1 : movieID = a
      · by_cases h2 : b = personID
        · simp [h1, h2]
        · have : ¬ personID = b := fun h => h2 h.symm
          simp [h1, h2]
      · have : ¬ a = movieID := fun h => h1 h.symm
        simp [h1, this]
  rw [hf, ← List.countP_eq_length_filter]
  exact List.count_eq_of_nodup hnd

/-- The join of `deletePerson` returns one row per movie the person is a cast
member of. -/
theorem selectMoviesOfActor_length (s : Store) (hnd : s.movie_actors.Nodup) (personID : Nat) :
    (selectMoviesOfActor s personID).length = castMembershipCount s personID := by
  unfold selectMoviesOfActor castMembershipCount
  generalize s.movies = ms
  induction ms with
  | nil => rfl
  | cons m ms ih =>
    rw [List.flatMap_cons, List.length_append, ih, List.length_map,
      linkCount_eq s.movie_actors hnd m.id personID]
    by_cases h : (⟨m.id, personID⟩ : MovieActor) ∈ s.movie_actors
    · simp [List.filter_cons, h]; omega
    · simp [List.filter_cons, h]

/-- Under the constraints of the schema, the cast links of a person are as
many as the movies the person is a cast member of. -/
theorem linksOfActor_length (s : Store) (hwf : s.WellFormed) (personID : Nat) :
    (s.movie_actors.filter (fun ma => ma.actor_id = personID)).length
      = castMembershipCount s personID := by
  unfold castMembershipCount
  have hA : ((s.movie_actors.filter (fun ma => ma.actor_id = personID)).map
      (fun ma => ma.movie_id)).Nodup := by
    apply List.Nodup.map_on _ (hwf.movie_actors_pkey.filter _)
    intro x hx y hy hxy
    simp only [List.mem_filter, decide_eq_true_eq] at hx hy
    cases x with
    | mk a b =>
      cases y with
      | mk c d =>
        simp only at hxy hx hy
        rw [hxy, hx.2, hy.2]
  have hB : ((s.movies.filter
      (fun m => decide ((⟨m.id, personID⟩ : MovieActor) ∈ s.movie_actors))).map
      (fun m => m.id)).Nodup :=
    hwf.movies_pkey.sublist ((List.filter_sublist _).map _)
  have hperm := (List.perm_ext_iff_of_nodup hA hB).mpr (by
    intro x
    simp only [List.mem_map, List.mem_filter, decide_eq_true_eq]
    constructor
    · rintro ⟨ma, ⟨hma, hact⟩, rfl⟩
      have hfk := hwf.movie_actors_movie_fkey ma hma
      simp only [List.mem_map] at hfk
      obtain ⟨m, hm, hmid⟩ := hfk
      refine ⟨m, ⟨hm, ?_⟩, hmid⟩
      cases ma with
      | mk a b =>
        simp only at hact hmid
        rw [hmid, ← hact]
        exact hma
    · rintro ⟨m, ⟨_, hlink⟩, rfl⟩
      exact ⟨⟨m.id, personID⟩, ⟨hlink, rfl⟩, rfl⟩)
  have hlen := hperm.length_eq
  simpa [List.length_map] using hlen

/-- Two people of a well-formed store with the same name are the same row. -/
theorem person_eq_of_name (s : Store) (hwf : s.WellFormed) (p q : Person)
    (hp : p ∈ s.people) (hq : q ∈ s.people) (h : q.name = p.name) : q = p :=
  List.inj_on_of_nodup_map hwf.people_name_key hq hp h

/-- Two people of a well-formed store with the same id are the same row. -/
theorem person_eq_of_id (s : Store) (hwf : s.WellFormed) (p q : Person)
    (hp : p ∈ s.people) (hq : q ∈ s.people) (h : q.id = p.id) : q = p :=
  List.inj_on_of_nodup_map hwf.people_pkey hq hp h

/-- What `deletePerson` computes for a person who directs no movie: both
statements of the transaction succeed. -/
theorem deletePerson_actor_eq (s : Store) (name : String) (p : Person) (hn : name ≠ "")
    (hp : s.people.find? (fun q => q.name = name) = some p)
    (hnd : ∀ m ∈ s.movies, m.director_id ≠ p.id) :
    deletePerson s name
      = (⟨s.people.filter (fun q => q.id ≠ p.id), s.movies,
          s.movie_actors.filter (fun ma => ma.actor_id ≠ p.id)⟩,
         "Enter the name of the person to delete: " ::
           deletionReport name ((selectMoviesOfActor s p.id).map
             (fun row => row.1 ++ " (" ++ toString row.2 ++ ")"))) := by
  have hlook := lookup_of_find s name p hp
  have hcount : countMoviesDirectedBy s p.id = 0 := by
    unfold countMoviesDirectedBy
    rw [List.length_eq_zero, List.filter_eq_nil_iff]
    intro m hm
    simpa using hnd m hm
  have hrow : deletePersonRow (deleteMovieActorsOfActor s p.id) p.id
      = .ok ⟨s.people.filter (fun q => q.id ≠ p.id), s.movies,
          s.movie_actors.filter (fun ma => ma.actor_id ≠ p.id)⟩ := by
    have h1 : (s.movies.any (fun m => decide (m.director_id = p.id))) = false := by
      rw [List.any_eq_false]
      intro m hm
      simpa using hnd m hm
    have h2 : ((s.movie_actors.filter (fun ma => decide (ma.actor_id ≠ p.id))).any
        (fun ma => decide (ma.actor_id = p.id))) = false := by
      rw [List.any_eq_false]
      intro ma hma
      simpa using (List.mem_filter.mp hma).2
    simp [deletePersonRow, deleteMovieActorsOfActor, h1, h2]
  simp only [deletePerson, hn, if_false, hlook, hcount, gt_iff_lt, lt_self_iff_false, hrow]

/-- Whatever the input, `deletePerson` either leaves the store as it was or
removes the row and the cast links of one person who directs no movie. -/
theorem deletePerson_store_cases (s : Store) (name : String) :
    (deletePerson s name).1 = s
    ∨ ∃ personID, (∀ m ∈ s.movies, m.director_id ≠ personID)
        ∧ (deletePerson s name).1
          = ⟨s.people.filter (fun q => q.id ≠ personID), s.movies,
             s.movie_actors.filter (fun ma => ma.actor_id ≠ personID)⟩ := by
  unfold deletePerson
  by_cases hn : name = ""
  · left; simp [hn]
  · simp only [hn, if_false]
    cases hlook : queryRowScan (selectPersonIdByName s name) with
    | error err => cases err <;> exact Or.inl rfl
    | ok personID =>
      simp only []
      by_cases hc : countMoviesDirectedBy s personID > 0
      · left; simp [hc]
      · simp only [hc, if_false]
        cases hrow : deletePersonRow (deleteMovieActorsOfActor s personID) personID with
        | error err => exact Or.inl rfl
        | ok tx =>
          right
          refine ⟨personID, ?_, ?_⟩
          · intro m hm hd
            exact hc (countMoviesDirectedBy_pos s personID m hm hd)
          · unfold deletePersonRow deleteMovieActorsOfActor at hrow
            split_ifs at hrow
            cases hrow
            rfl

/-- The constraints of the schema hold again after `deletePerson`. -/
theorem deletePerson_wellFormed (s : Store) (hwf : s.WellFormed) (name : String) :
    (deletePerson s name).1.WellFormed := by
  rcases deletePerson_store_cases s name with h | ⟨personID, hnd, h⟩
  · rw [h]; exact hwf
  · rw [h]
    refine ⟨?_, ?_, hwf.movies_pkey, hwf.movies_title_director_key, ?_, ?_, ?_, ?_⟩
    · exact hwf.people_pkey.sublist ((List.filter_sublist _).map _)
    · exact hwf.people_name_key.sublist ((List.filter_sublist _).map _)
    · intro m hm
      have hfk := hwf.movies_director_fkey m hm
      simp only [List.mem_map] at hfk ⊢
      obtain ⟨q, hq, hqid⟩ := hfk
      refine ⟨q, List.mem_filter.mpr ⟨hq, ?_⟩, hqid⟩
      have : q.id ≠ personID := fun hid => hnd m hm (hqid.symm.trans hid)
      simpa using this
    · exact hwf.movie_actors_pkey.sublist (List.filter_sublist _)
    · intro ma hma
      exact hwf.movie_actors_movie_fkey ma (List.mem_filter.mp hma).1
    · intro ma hma
      have hma2 := List.mem_filter.mp hma
      have hfk := hwf.movie_actors_actor_fkey ma hma2.1
      simp only [List.mem_map] at hfk ⊢
      obtain ⟨q, hq, hqid⟩ := hfk
      refine ⟨q, List.mem_filter.mpr ⟨hq, ?_⟩, hqid⟩
      have hne : ma.actor_id ≠ personID := by simpa using hma2.2
      have : q.id ≠ personID := fun hid => hne (hqid.symm.trans hid)
      simpa using this

/-! ## Claims on the deletion of an actor -/

/-- C3: in a store that satisfies the constraints of the schema, when the
non-empty name resolves to a person `p` who directs no movie, `deletePerson`
succeeds and removes exactly the row of `p` and the cast links of `p`: the
movies are unchanged, the people are the former people without `p` (one row
fewer), the cast links are the former links of the other actors, their number
decreases by the number of movies `p` was a cast member of (which is also the
number of movies listed in the report), no remaining link references `p`, and
a subsequent lookup of the name finds nobody: a second `deletePerson` reports
not-found. -/
theorem deletePerson_actor_removed (s : Store) (hwf : s.WellFormed) (name : String)
    (p : Person) (hn : name ≠ "")
    (hp : s.people.find? (fun q => q.name = name) = some p)
    (hnd : ∀ m ∈ s.movies, m.director_id ≠ p.id) :
    (deletePerson s name).2 = "Enter the name of the person to delete: " ::
        deletionReport name ((selectMoviesOfActor s p.id).map
          (fun row => row.1 ++ " (" ++ toString row.2 ++ ")"))
    ∧ (deletePerson s name).1.movies = s.movies
    ∧ (deletePerson s name).1.people = s.people.erase p
    ∧ (deletePerson s name).1.people.length + 1 = s.people.length
    ∧ (deletePerson s name).1.movie_actors
        = s.movie_actors.filter (fun ma => ma.actor_id ≠ p.id)
    ∧ (deletePerson s name).1.movie_actors.length + castMembershipCount s p.id
        = s.movie_actors.length
    ∧ (selectMoviesOfActor s p.id).length = castMembershipCount s p.id
    ∧ (∀ ma ∈ (deletePerson s name).1.movie_actors, ma.actor_id ≠ p.id)
    ∧ (deletePerson s name).1.people.find? (fun q => q.name = name) = none
    ∧ deletePerson (deletePerson s name).1 name
        = ((deletePerson s name).1,
           ["Enter the name of the person to delete: ",
            "Person '" ++ name ++ "' not found in the database.\n"]) := by
  have hpm : p ∈ s.people := List.mem_of_find?_eq_some hp
  have hpn : p.name = name := by simpa using List.find?_some hp
  have hndp : s.people.Nodup := List.Nodup.of_map _ hwf.people_pkey
  have hfilter : s.people.filter (fun q => decide (q.id ≠ p.id)) = s.people.erase p := by
    rw [hndp.erase_eq_filter]
    apply List.filter_congr
    intro q hq
    by_cases h : q = p
    · simp [h]
    · have : q.id ≠ p.id := fun hid => h (person_eq_of_id s hwf p q hpm hq hid)
      simp [h, this]
  have hnone : (s.people.erase p).find? (fun q => q.name = name) = none := by
    rw [List.find?_eq_none]
    intro q hq
    have hq2 : q ∈ s.people := List.mem_of_mem_erase hq
    have hqp : q ≠ p := fun h => by
      rw [h] at hq
      exact (List.Nodup.mem_erase_iff hndp).mp hq |>.1 rfl
    have : q.name ≠ name := fun hname =>
      hqp (person_eq_of_name s hwf p q hpm hq2 (hname.trans hpn.symm))
    simpa using this
  have e := deletePerson_actor_eq s name p hn hp hnd
  rw [e, hfilter]
  refine ⟨rfl, rfl, rfl, ?_, rfl, ?_, selectMoviesOfActor_length s hwf.movie_actors_pkey p.id,
    ?_, hnone, ?_⟩
  · show (s.people.erase p).length + 1 = s.people.length
    rw [List.length_erase_of_mem hpm]
    have : 0 < s.people.length := List.length_pos_of_mem hpm
    omega
  · show (s.movie_actors.filter (fun ma => decide (ma.actor_id ≠ p.id))).length
        + castMembershipCount s p.id = s.movie_actors.length
    rw [← linksOfActor_length s hwf p.id]
    have h := List.length_eq_length_filter_add (l := s.movie_actors)
      (fun ma => decide (ma.actor_id = p.id))
    have h2 : s.movie_actors.filter (fun ma => !decide (ma.actor_id = p.id))
        = s.movie_actors.filter (fun ma => decide (ma.actor_id ≠ p.id)) := by
      apply List.filter_congr
      intro ma _
      simp
    rw [h2] at h
    omega
  · intro ma hma
    simpa using (List.mem_filter.mp hma).2
  · have hl := lookup_of_find_none
      ⟨s.people.erase p, s.movies, s.movie_actors.filter (fun ma => ma.actor_id ≠ p.id)⟩
      name hnone
    simp only [deletePerson, hn, if_false, hl]

/-- C3, witness: deleting Bob Actor from `castStore` removes his row and his
one cast link and leaves Ann Director and Test Film. -/
theorem deletePerson_actor_removed_witness :
    castStore.WellFormed
    ∧ (deletePerson castStore "Bob Actor").1.movies = castStore.movies
    ∧ (deletePerson castStore "Bob Actor").1.people
        = castStore.people.erase ⟨2, "Bob Actor", some 1980⟩
    ∧ (deletePerson castStore "Bob Actor").1.movie_actors.length
        + castMembershipCount castStore 2 = castStore.movie_actors.length
    ∧ deletePerson (deletePerson castStore "Bob Actor").1 "Bob Actor"
        = ((deletePerson castStore "Bob Actor").1,
           ["Enter the name of the person to delete: ",
            "Person '" ++ "Bob Actor" ++ "' not found in the database.\n"]) :=
  have hwf : castStore.WellFormed :=
    ⟨by decide, by decide, by decide, by decide, by decide, by decide, by decide, by decide⟩
  have h := deletePerson_actor_removed castStore hwf "Bob Actor" ⟨2, "Bob Actor", some 1980⟩
    (by decide) (by decide) (by decide)
  ⟨hwf, h.2.1, h.2.2.1, h.2.2.2.2.2.1, h.2.2.2.2.2.2.2.2.2⟩

/-! ## Lemmas on the flag loop of `parseCommand` -/

/-- The flag loop stops only with a printed message or a panic, never with a
listing. -/
theorem parseListFlags_error_not_listing (compiles : String → Bool) :
    ∀ (n : Nat) (rest : List String) (st : ListFlags) (a : Action),
      rest.length ≤ n → parseListFlags compiles rest st = .error a →
      a.isListing = false := by
  intro n
  induction n with
  | zero =>
    intro rest st a hlen h
    have hnil : rest = [] := List.eq_nil_of_length_eq_zero (by omega)
    subst hnil
    simp [parseListFlags] at h
  | succ n ih =>
    intro rest st a hlen h
    rcases rest with _ | ⟨arg, _ | ⟨next, tail⟩⟩
    · simp [parseListFlags] at h
    · simp only [parseListFlags] at h
      split_ifs at h <;> cases h <;> rfl
    · have hl1 : (next :: tail).length ≤ n := by simp at hlen ⊢; omega
      have hl2 : tail.length ≤ n := by simp at hlen ⊢; omega
      simp only [parseListFlags] at h
      split_ifs at h <;>
        first
        | exact ih _ _ _ hl1 h
        | exact ih _ _ _ hl2 h
        | (cases h <;> rfl)

/-- Once `orderBy` is `length_desc`, a `-la` read in flag position stops the
loop (if nothing stops it earlier). -/
theorem parseListFlags_la_after_ld (compiles : String → Bool) :
    ∀ (n : Nat) (rest : List String) (st : ListFlags),
      rest.length ≤ n → "-la" ∈ flagTokens rest → st.orderBy = "length_desc" →
      ∀ f, parseListFlags compiles rest st ≠ .ok f := by
  intro n
  induction n with
  | zero =>
    intro rest st hlen hmem
    have hnil : rest = [] := List.eq_nil_of_length_eq_zero (by omega)
    subst hnil
    simp [flagTokens] at hmem
  | succ n ih =>
    intro rest st hlen hmem hst f
    rcases rest with _ | ⟨arg, _ | ⟨next, tail⟩⟩
    · simp [flagTokens] at hmem
    · simp only [flagTokens, List.mem_singleton] at hmem
      subst hmem
      simp [parseListFlags, hst]
    · have hl1 : (next :: tail).length ≤ n := by simp at hlen ⊢; omega
      have hl2 : tail.length ≤ n := by simp at hlen ⊢; omega
      simp only [flagTokens] at hmem
      simp only [parseListFlags]
      split_ifs at hmem ⊢ <;> simp_all

/-- Once `orderBy` is `length_asc`, a `-ld` read in flag position stops the
loop (if nothing stops it earlier). -/
theorem parseListFlags_ld_after_la (compiles : String → Bool) :
    ∀ (n : Nat) (rest : List String) (st : ListFlags),
      rest.length ≤ n → "-ld" ∈ flagTokens rest → st.orderBy = "length_asc" →
      ∀ f, parseListFlags compiles rest st ≠ .ok f := by
  intro n
  induction n with
  | zero =>
    intro rest st hlen hmem
    have hnil : rest = [] := List.eq_nil_of_length_eq_zero (by omega)
    subst hnil
    simp [flagTokens] at hmem
  | succ n ih =>
    intro rest st hlen hmem hst f
    rcases rest with _ | ⟨arg, _ | ⟨next, tail⟩⟩
    · simp [flagTokens] at hmem
    · simp only [flagTokens, List.mem_singleton] at hmem
      subst hmem
      simp [parseListFlags, hst]
    · have hl1 : (next :: tail).length ≤ n := by simp at hlen ⊢; omega
      have hl2 : tail.length ≤ n := by simp at hlen ⊢; omega
      simp only [flagTokens] at hmem
      simp only [parseListFlags]
      split_ifs at hmem ⊢ <;> simp_all

/-- When both `-la` and `-ld` are read in flag position the loop never runs
to its end. -/
theorem parseListFlags_la_ld (compiles : String → Bool) :
    ∀ (n : Nat) (rest : List String) (st : ListFlags),
      rest.length ≤ n → "-la" ∈ flagTokens rest → "-ld" ∈ flagTokens rest →
      ∀ f, parseListFlags compiles rest st ≠ .ok f := by
  intro n
  induction n with
  | zero =>
    intro rest st hlen hmem
    have hnil : rest = [] := List.eq_nil_of_length_eq_zero (by omega)
    subst hnil
    simp [flagTokens] at hmem
  | succ n ih =>
    intro rest st hlen hla hld f
    rcases rest with _ | ⟨arg, _ | ⟨next, tail⟩⟩
    · simp [flagTokens] at hla
    · simp only [flagTokens, List.mem_singleton] at hla hld
      subst hla
      simp at hld
    · have hl1 : (next :: tail).length ≤ n := by simp at hlen ⊢; omega
      have hl2 : tail.length ≤ n := by simp at hlen ⊢; omega
      have hA := parseListFlags_la_after_ld compiles n (next :: tail)
      have hB := parseListFlags_ld_after_la compiles n (next :: tail)
      simp only [flagTokens] at hla hld
      simp only [parseListFlags]
      split_ifs at hla hld ⊢ <;> simp_all

/-- A rejection of the arguments after a flag without pattern (`-v`, `-la`,
`-ld`) is a rejection of the whole. -/
theorem ListCommandRejection.cons_plain (compiles : String → Bool) (arg next : String)
    (tail : List String) (ob ob2 : String) (a : Action)
    (hnp : ¬ (arg = "-t" ∨ arg = "-d" ∨ arg = "-a"))
    (hdesc : ob2 = "length_desc" → ob = "length_desc" ∨ arg = "-ld")
    (hasc : ob2 = "length_asc" → ob = "length_asc" ∨ arg = "-la")
    (h : ListCommandRejection compiles (next :: tail) ob2 a) :
    ListCommandRejection compiles (arg :: next :: tail) ob a := by
  have hft : flagTokens (arg :: next :: tail) = arg :: flagTokens (next :: tail) := by
    simp [flagTokens, hnp]
  have hmp : missingPattern (arg :: next :: tail) = missingPattern (next :: tail) := by
    simp only [missingPattern, if_neg hnp]
  have hpt : patternTokens (arg :: next :: tail) = patternTokens (next :: tail) := by
    simp only [patternTokens, if_neg hnp]
  have hgl : (arg :: next :: tail).getLast? = (next :: tail).getLast? :=
    List.getLast?_cons_cons
  unfold ListCommandRejection at h ⊢
  rw [hft, hmp, hpt, hgl]
  rcases h with ⟨x, hx, hn, ha⟩ | h | ⟨ha, hc⟩ | h
  · exact Or.inl ⟨x, List.mem_cons_of_mem _ hx, hn, ha⟩
  · exact Or.inr (Or.inl h)
  · refine Or.inr (Or.inr (Or.inl ⟨ha, ?_⟩))
    rcases hc with ⟨hla, hob | hld⟩ | ⟨hld, hob | hla⟩
    · rcases hdesc hob with h1 | h1
      · exact Or.inl ⟨List.mem_cons_of_mem _ hla, Or.inl h1⟩
      · exact Or.inl ⟨List.mem_cons_of_mem _ hla, Or.inr (by rw [h1]; exact List.mem_cons_self _ _)⟩
    · exact Or.inl ⟨List.mem_cons_of_mem _ hla, Or.inr (List.mem_cons_of_mem _ hld)⟩
    · rcases hasc hob with h1 | h1
      · exact Or.inr ⟨List.mem_cons_of_mem _ hld, Or.inl h1⟩
      · exact Or.inr ⟨List.mem_cons_of_mem _ hld, Or.inr (by rw [h1]; exact List.mem_cons_self _ _)⟩
    · exact Or.inr ⟨List.mem_cons_of_mem _ hld, Or.inr (List.mem_cons_of_mem _ hla)⟩
  · exact Or.inr (Or.inr (Or.inr h))

theorem missingPattern_ne_nil (rest : List String) (h : missingPattern rest = true) :
    rest ≠ [] := by
  intro hnil
  subst hnil
  simp [missingPattern] at h

/-- A rejection of the arguments after a flag and its pattern is a rejection
of the whole. -/
theorem ListCommandRejection.cons_pattern (compiles : String → Bool) (arg next : String)
    (tail : List String) (ob : String) (a : Action)
    (hp : arg = "-t" ∨ arg = "-d" ∨ arg = "-a")
    (h : ListCommandRejection compiles tail ob a) :
    ListCommandRejection compiles (arg :: next :: tail) ob a := by
  have hft : flagTokens (arg :: next :: tail) = arg :: flagTokens tail := by
    simp only [flagTokens, if_pos hp]
  have hmp : missingPattern (arg :: next :: tail) = missingPattern tail := by
    simp only [missingPattern, if_pos hp]
  have hpt : patternTokens (arg :: next :: tail)
      = stripSurroundingQuotes next :: patternTokens tail := by
    simp only [patternTokens, if_pos hp]
  unfold ListCommandRejection at h ⊢
  rw [hft, hmp, hpt]
  rcases h with ⟨x, hx, hn, ha⟩ | ⟨hm, hlast⟩ | ⟨ha, hc⟩ | ⟨p, hpm, hc, ha⟩
  · exact Or.inl ⟨x, List.mem_cons_of_mem _ hx, hn, ha⟩
  · have hne := missingPattern_ne_nil tail hm
    have hgl : (arg :: next :: tail).getLast? = tail.getLast? := by
      cases tail with
      | nil => exact absurd rfl hne
      | cons y ys => rw [List.getLast?_cons_cons, List.getLast?_cons_cons]
    rw [hgl]
    exact Or.inr (Or.inl ⟨hm, hlast⟩)
  · refine Or.inr (Or.inr (Or.inl ⟨ha, ?_⟩))
    rcases hc with ⟨hla, hob | hld⟩ | ⟨hld, hob | hla⟩
    · exact Or.inl ⟨List.mem_cons_of_mem _ hla, Or.inl hob⟩
    · exact Or.inl ⟨List.mem_cons_of_mem _ hla, Or.inr (List.mem_cons_of_mem _ hld)⟩
    · exact Or.inr ⟨List.mem_cons_of_mem _ hld, Or.inl hob⟩
    · exact Or.inr ⟨List.mem_cons_of_mem _ hld, Or.inr (List.mem_cons_of_mem _ hla)⟩
  · exact Or.inr (Or.inr (Or.inr ⟨p, List.mem_cons_of_mem _ hpm, hc, ha⟩))


/-- Whenever the flag loop stops, it stops with a rejection the arguments
account for. -/
theorem parseListFlags_error_rejection (compiles : String → Bool) :
    ∀ (n : Nat) (rest : List String) (st : ListFlags) (a : Action),
      rest.length ≤ n → parseListFlags compiles rest st = .error a →
      ListCommandRejection compiles rest st.orderBy a := by
  intro n
  induction n with
  | zero =>
    intro rest st a hlen h
    have hnil : rest = [] := List.eq_nil_of_length_eq_zero (by omega)
    subst hnil
    simp [parseListFlags] at h
  | succ n ih =>
    intro rest st a hlen h
    rcases rest with _ | ⟨arg, _ | ⟨next, tail⟩⟩
    · simp [parseListFlags] at h
    · simp only [parseListFlags] at h
      split_ifs at h <;> cases h
      · exact Or.inr (Or.inl ⟨by simp [missingPattern, ‹arg = "-t"›],
          Or.inl ⟨by simp [‹arg = "-t"›], rfl⟩⟩)
      · exact Or.inr (Or.inl ⟨by simp [missingPattern, ‹arg = "-d"›],
          Or.inr (Or.inl ⟨by simp [‹arg = "-d"›], rfl⟩)⟩)
      · exact Or.inr (Or.inl ⟨by simp [missingPattern, ‹arg = "-a"›],
          Or.inr (Or.inr ⟨by simp [‹arg = "-a"›], rfl⟩)⟩)
      · exact Or.inr (Or.inr (Or.inl ⟨rfl,
          Or.inl ⟨by simp [flagTokens, ‹arg = "-la"›], Or.inl ‹st.orderBy = "length_desc"›⟩⟩))
      · exact Or.inr (Or.inr (Or.inl ⟨rfl,
          Or.inr ⟨by simp [flagTokens, ‹arg = "-ld"›], Or.inl ‹st.orderBy = "length_asc"›⟩⟩))
      · exact Or.inl ⟨arg, by simp [flagTokens], by simp [listFlagNames, *], rfl⟩
    · have hl1 : (next :: tail).length ≤ n := by simp at hlen ⊢; omega
      have hl2 : tail.length ≤ n := by simp at hlen ⊢; omega
      simp only [parseListFlags] at h
      split_ifs at h
      · -- `-v`
        have hrec := ih _ _ _ hl1 h
        exact ListCommandRejection.cons_plain compiles arg next tail _ _ a
          (by rw [‹arg = "-v"›]; decide) Or.inl Or.inl hrec
      · -- `-t`, the pattern compiles
        have hrec := ih _ _ _ hl2 h
        exact ListCommandRejection.cons_pattern compiles arg next tail _ a
          (Or.inl ‹arg = "-t"›) hrec
      · -- `-t`, the pattern does not compile
        cases h
        refine Or.inr (Or.inr (Or.inr ⟨stripSurroundingQuotes next, ?_, by simp_all, rfl⟩))
        simp [patternTokens, ‹arg = "-t"›]
      · have hrec := ih _ _ _ hl2 h
        exact ListCommandRejection.cons_pattern compiles arg next tail _ a
          (Or.inr (Or.inl ‹arg = "-d"›)) hrec
      · cases h
        refine Or.inr (Or.inr (Or.inr ⟨stripSurroundingQuotes next, ?_, by simp_all, rfl⟩))
        simp [patternTokens, ‹arg = "-d"›]
      · have hrec := ih _ _ _ hl2 h
        exact ListCommandRejection.cons_pattern compiles arg next tail _ a
          (Or.inr (Or.inr ‹arg = "-a"›)) hrec
      · cases h
        refine Or.inr (Or.inr (Or.inr ⟨stripSurroundingQuotes next, ?_, by simp_all, rfl⟩))
        simp [patternTokens, ‹arg = "-a"›]
      · -- `-la` after `-ld`
        cases h
        refine Or.inr (Or.inr (Or.inl ⟨rfl, Or.inl ⟨?_, Or.inl ‹st.orderBy = "length_desc"›⟩⟩))
        simp [flagTokens, ‹arg = "-la"›]
      · -- `-la`
        have hrec := ih _ _ _ hl1 h
        exact ListCommandRejection.cons_plain compiles arg next tail _ "length_asc" a
          (by rw [‹arg = "-la"›]; decide) (fun hc => absurd hc (by decide))
          (fun _ => Or.inr ‹arg = "-la"›) hrec
      · -- `-ld` after `-la`
        cases h
        refine Or.inr (Or.inr (Or.inl ⟨rfl, Or.inr ⟨?_, Or.inl ‹st.orderBy = "length_asc"›⟩⟩))
        simp [flagTokens, ‹arg = "-ld"›]
      · -- `-ld`
        have hrec := ih _ _ _ hl1 h
        exact ListCommandRejection.cons_plain compiles arg next tail _ "length_desc" a
          (by rw [‹arg = "-ld"›]; decide) (fun _ => Or.inr ‹arg = "-ld"›)
          (fun hc => absurd hc (by decide)) hrec
      · -- unknown flag
        cases h
        refine Or.inl ⟨arg, ?_, by simp [listFlagNames, *], rfl⟩
        have hnp : ¬ (arg = "-t" ∨ arg = "-d" ∨ arg = "-a") := by simp [*]
        simp [flagTokens, hnp]

/-- A rejection by the flag loop calls no operation. -/
theorem ListCommandRejection.no_operation (compiles : String → Bool) (rest : List String)
    (ob : String) (a : Action) (h : ListCommandRejection compiles rest ob a) :
    a.callsOperation = false ∧ a.isListing = false := by
  rcases h with ⟨x, _, _, ha⟩ | ⟨_, ⟨_, ha⟩ | ⟨_, ha⟩ | ⟨_, ha⟩⟩ | ⟨ha, _⟩ | ⟨p, _, _, ha⟩ <;>
    (subst ha; exact ⟨rfl, rfl⟩)

/-- A rejection by the flag loop prints a message unless a pattern of the
line does not compile. -/
theorem ListCommandRejection.print_or_panic (compiles : String → Bool) (rest : List String)
    (ob : String) (a : Action) (h : ListCommandRejection compiles rest ob a) :
    (∃ msg, a = .print msg)
    ∨ (∃ p ∈ patternTokens rest, compiles p = false ∧ a = .regexPanic p) := by
  rcases h with ⟨x, _, _, ha⟩ | ⟨_, ⟨_, ha⟩ | ⟨_, ha⟩ | ⟨_, ha⟩⟩ | ⟨ha, _⟩ | h
  · exact Or.inl ⟨_, ha⟩
  · exact Or.inl ⟨_, ha⟩
  · exact Or.inl ⟨_, ha⟩
  · exact Or.inl ⟨_, ha⟩
  · exact Or.inl ⟨_, ha⟩
  · exact Or.inr h

/-- A list command the flag loop stops on ends with the loop's rejection. -/
theorem parseCommandArgs_list_error (compiles : String → Bool) (rest : List String)
    (a : Action)
    (hres : parseListFlags compiles rest ⟨false, none, none, none, "title"⟩ = .error a) :
    parseCommandArgs compiles ("l" :: rest) = a
    ∧ ListCommandRejection compiles rest "title" a := by
  refine ⟨by simp [parseCommandArgs, hres], ?_⟩
  exact parseListFlags_error_rejection compiles rest.length rest _ a (le_refl _) hres

/-! ## Claims on the flag loop of `parseCommand` -/

/-- C4, as stated, fails: in `l -t -la -ld` the arguments contain both `-la`
and `-ld`, but `-la` is read as the pattern of `-t`; the command is not
rejected and `listMovies` runs with title pattern `-la` and descending
runtime order. -/
theorem parseCommand_la_as_pattern_lists :
    parseArgs "l -t -la -ld" = ["l", "-t", "-la", "-ld"]
    ∧ plainPattern "-la" = true
    ∧ parseCommand plainPattern "l -t -la -ld"
        = Action.listMovies (some "-la") none none "length_desc"
    ∧ (parseCommand plainPattern "l -t -la -ld").isListing = true := by
  decide

/-- C4, amended: for every list command (first argument `l`) in which both
`-la` and `-ld` are read in flag position, that is, neither is the pattern
that follows a `-t`, `-d` or `-a`, `parseCommand` rejects the command and
executes no listing query: it calls none of the operations, and it ends with
a rejection of the flag loop that the line accounts for (the message on `-la`
and `-ld` together or, when the loop stops earlier, the message on an unknown
flag or the panic of `regexp.MustCompile` on a pattern of the line that it
does not accept).  When every argument read in flag position is a flag, no
final flag lacks its pattern and every pattern compiles, the command is
rejected with `Error: Both -la and -ld cannot be used together.`. -/
theorem parseCommandArgs_la_ld_no_listing (compiles : String → Bool) (rest : List String)
    (hla : "-la" ∈ flagTokens rest) (hld : "-ld" ∈ flagTokens rest) :
    ListCommandRejection compiles rest "title" (parseCommandArgs compiles ("l" :: rest))
    ∧ ((∃ msg, parseCommandArgs compiles ("l" :: rest) = .print msg)
        ∨ (∃ p ∈ patternTokens rest, compiles p = false
            ∧ parseCommandArgs compiles ("l" :: rest) = .regexPanic p))
    ∧ (parseCommandArgs compiles ("l" :: rest)).callsOperation = false
    ∧ (parseCommandArgs compiles ("l" :: rest)).isListing = false
    ∧ ((∀ x ∈ flagTokens rest, x ∈ listFlagNames) → missingPattern rest = false →
        (∀ p ∈ patternTokens rest, compiles p = true) →
        parseCommandArgs compiles ("l" :: rest)
          = .print "Error: Both -la and -ld cannot be used together.\n") := by
  have hno := parseListFlags_la_ld compiles rest.length rest ⟨false, none, none, none, "title"⟩
    (le_refl _) hla hld
  cases hres : parseListFlags compiles rest ⟨false, none, none, none, "title"⟩ with
  | ok f => exact absurd hres (hno f)
  | error a =>
    obtain ⟨e, hrej⟩ := parseCommandArgs_list_error compiles rest a hres
    rw [e]
    refine ⟨hrej, ListCommandRejection.print_or_panic compiles rest _ a hrej,
      (ListCommandRejection.no_operation compiles rest _ a hrej).1,
      (ListCommandRejection.no_operation compiles rest _ a hrej).2, ?_⟩
    intro hall hmiss hpat
    rcases hrej with ⟨x, hx, hn, _⟩ | ⟨hm, _⟩ | ⟨ha, _⟩ | ⟨p, hp, hc, _⟩
    · exact absurd (hall x hx) hn
    · rw [hmiss] at hm
      cases hm
    · exact ha
    · rw [hpat p hp] at hc
      cases hc

/-- C4, witness: `l -v -la -t Star -ld` reads both flags in flag position and
is rejected with the message on `-la` and `-ld`. -/
theorem parseCommandArgs_la_ld_no_listing_witness :
    (parseCommandArgs plainPattern ("l" :: ["-v", "-la", "-t", "Star", "-ld"])).isListing
        = false
    ∧ (parseCommandArgs plainPattern ("l" :: ["-v", "-la", "-t", "Star", "-ld"])).callsOperation
        = false
    ∧ parseCommandArgs plainPattern ("l" :: ["-v", "-la", "-t", "Star", "-ld"])
        = Action.print "Error: Both -la and -ld cannot be used together.\n" :=
  have h := parseCommandArgs_la_ld_no_listing plainPattern ["-v", "-la", "-t", "Star", "-ld"]
    (by decide) (by decide)
  ⟨h.2.2.2.1, h.2.2.1, h.2.2.2.2 (by decide) (by decide) (by decide)⟩

/-! ## Lemmas on the query builder -/

set_option maxRecDepth 100000 in
/-- Without a pattern, the text ` WHERE ` occurs nowhere in the query. -/
theorem no_where_without_pattern (orderBy : String) :
    ¬ (" WHERE ".data <:+: (listMoviesBaseQuery ++ orderByClause orderBy).data) := by
  unfold orderByClause
  split_ifs
  · decide
  · decide
  · decide

/-- With a pattern, the clause described by the specification starts with
` WHERE `. -/
theorem specWhereClause_present (titleRegex directorRegex actorRegex : Option String)
    (h : ¬ (titleRegex = none ∧ directorRegex = none ∧ actorRegex = none)) :
    ∃ rest, specWhereClause titleRegex directorRegex actorRegex = " WHERE " ++ rest := by
  rcases titleRegex with _ | t <;> rcases directorRegex with _ | d <;>
    rcases actorRegex with _ | a
  · exact absurd ⟨rfl, rfl, rfl⟩ h
  all_goals exact ⟨_, rfl⟩

/-- The text ` WHERE ` occurs in the query exactly when a pattern is present. -/
theorem where_occurs_iff (titleRegex directorRegex actorRegex : Option String)
    (orderBy : String) :
    (" WHERE ".data <:+: (listMoviesBaseQuery
        ++ specWhereClause titleRegex directorRegex actorRegex
        ++ orderByClause orderBy).data)
      ↔ ¬ (titleRegex = none ∧ directorRegex = none ∧ actorRegex = none) := by
  constructor
  · rintro hin ⟨rfl, rfl, rfl⟩
    exact no_where_without_pattern orderBy hin
  · intro h
    obtain ⟨rest, hrest⟩ := specWhereClause_present titleRegex directorRegex actorRegex h
    rw [hrest]
    exact ⟨listMoviesBaseQuery.data, rest.data ++ (orderByClause orderBy).data,
      by simp [String.data_append]⟩

/-! ## Claims on the query builder -/

/-- C5: for every combination of present and absent title, director and actor
patterns, and both for `listMovies` and `listMoviesVerbose`, the query is the
base query, then the WHERE clause the specification describes (none when no
pattern is present; otherwise the ` AND `-join of one predicate per present
pattern in the order title, director, actor, with placeholders `$1..$k`),
then the ORDER BY clause; the clause is absent exactly when no pattern is
present (the text ` WHERE ` occurs in the query exactly when a pattern is
present); and the bound parameters are the texts of the present patterns in
the same order, `k` of them. -/
theorem listMoviesQuery_where_clause (titleRegex directorRegex actorRegex : Option String)
    (orderBy : String) :
    listMoviesQuery titleRegex directorRegex actorRegex orderBy
      = (listMoviesBaseQuery ++ specWhereClause titleRegex directorRegex actorRegex
            ++ orderByClause orderBy,
         specParams titleRegex directorRegex actorRegex)
    ∧ listMoviesVerboseQuery titleRegex directorRegex actorRegex orderBy
      = (listMoviesBaseQuery ++ specWhereClause titleRegex directorRegex actorRegex
            ++ orderByClause orderBy,
         specParams titleRegex directorRegex actorRegex)
    ∧ (specWhereClause titleRegex directorRegex actorRegex = ""
        ↔ titleRegex = none ∧ directorRegex = none ∧ actorRegex = none)
    ∧ (" WHERE ".data <:+:
          (listMoviesQuery titleRegex directorRegex actorRegex orderBy).1.data
        ↔ ¬ (titleRegex = none ∧ directorRegex = none ∧ actorRegex = none))
    ∧ (specParams titleRegex directorRegex actorRegex).length
        = (presentPatterns titleRegex directorRegex actorRegex).length
    ∧ (presentPatterns titleRegex directorRegex actorRegex).length
        = (if titleRegex.isSome then 1 else 0) + (if directorRegex.isSome then 1 else 0)
          + (if actorRegex.isSome then 1 else 0) := by
  have hne : ∀ rest : String, " WHERE " ++ rest ≠ "" := by
    intro rest h
    have h2 := congrArg String.data h
    simp [String.data_append] at h2
  have hq : listMoviesQuery titleRegex directorRegex actorRegex orderBy
      = (listMoviesBaseQuery ++ specWhereClause titleRegex directorRegex actorRegex
            ++ orderByClause orderBy,
         specParams titleRegex directorRegex actorRegex) := by
    cases titleRegex <;> cases directorRegex <;> cases actorRegex <;> rfl
  refine ⟨hq, ?_, ?_, ?_, ?_, ?_⟩
  · cases titleRegex <;> cases directorRegex <;> cases actorRegex <;> rfl
  · cases titleRegex <;> cases directorRegex <;> cases actorRegex <;>
      simp [specWhereClause, presentPatterns, hne]
  · rw [hq]
    exact where_occurs_iff titleRegex directorRegex actorRegex orderBy
  · simp [specParams]
  · cases titleRegex <;> cases directorRegex <;> cases actorRegex <;> rfl

/-- C6: the SQL text never holds filter text: two calls of `listMovies`, of
`listMoviesVerbose` or of `displayActorsForMovie` that agree on which
patterns are present (and on the ordering mode) build the same query string,
whatever the pattern texts, the movie title and the release year are; these
values are in the bound parameter list only. -/
theorem query_text_independent_of_patterns
    (titleRegex directorRegex actorRegex titleRegex2 directorRegex2 actorRegex2 : Option String)
    (orderBy movieTitle movieTitle2 : String) (releaseYear releaseYear2 : Int)
    (ht : titleRegex.isSome = titleRegex2.isSome)
    (hd : directorRegex.isSome = directorRegex2.isSome)
    (ha : actorRegex.isSome = actorRegex2.isSome) :
    (listMoviesQuery titleRegex directorRegex actorRegex orderBy).1
      = (listMoviesQuery titleRegex2 directorRegex2 actorRegex2 orderBy).1
    ∧ (listMoviesVerboseQuery titleRegex directorRegex actorRegex orderBy).1
      = (listMoviesVerboseQuery titleRegex2 directorRegex2 actorRegex2 orderBy).1
    ∧ (displayActorsQuery movieTitle releaseYear actorRegex).1
      = (displayActorsQuery movieTitle2 releaseYear2 actorRegex2).1 := by
  cases titleRegex <;> cases titleRegex2 <;> simp at ht <;>
  cases directorRegex <;> cases directorRegex2 <;> simp at hd <;>
  cases actorRegex <;> cases actorRegex2 <;> simp at ha <;>
  exact ⟨rfl, rfl, rfl⟩

/-- C6, witness: the title patterns `Star` and `x' OR '1'='1` give the same
query text; the pattern is in the parameter list. -/
theorem query_text_independent_of_patterns_witness :
    (listMoviesQuery (some "Star") none none "title").1
      = (listMoviesQuery (some "x' OR '1'='1") none none "title").1
    ∧ (listMoviesQuery (some "x' OR '1'='1") none none "title").2 = ["x' OR '1'='1"] :=
  ⟨(query_text_independent_of_patterns (some "Star") none none (some "x' OR '1'='1") none none
      "title" "" "" 0 0 rfl rfl rfl).1, rfl⟩

/-! ## Lemmas on `%02d` -/

theorem toDigits_one_digit (n : Nat) (h : n < 10) :
    Nat.toDigits 10 n = [Nat.digitChar n] := by
  unfold Nat.toDigits
  simp [Nat.toDigitsCore, Nat.div_eq_of_lt h, Nat.mod_eq_of_lt h]

theorem toDigits_two_digits (n : Nat) (h1 : 10 ≤ n) (h2 : n < 100) :
    Nat.toDigits 10 n = [Nat.digitChar (n / 10), Nat.digitChar (n % 10)] := by
  obtain ⟨k, rfl⟩ : ∃ k, n = k + 1 := ⟨n - 1, by omega⟩
  have h3 : ¬ (k + 1) / 10 = 0 := by omega
  have h4 : (k + 1) / 10 / 10 = 0 := by omega
  have h5 : (k + 1) / 10 % 10 = (k + 1) / 10 := by omega
  unfold Nat.toDigits
  simp [Nat.toDigitsCore, h3, h4, h5]

theorem toDigitsCore_length_ge (f : Nat) :
    ∀ (n : Nat) (ds : List Char), ds.length ≤ (Nat.toDigitsCore 10 f n ds).length := by
  induction f with
  | zero => intro n ds; simp [Nat.toDigitsCore]
  | succ f ih =>
    intro n ds
    simp only [Nat.toDigitsCore]
    split_ifs
    · simp
    · exact le_trans (by simp) (ih (n / 10) (Nat.digitChar (n % 10) :: ds))

theorem toDigits_length_ge_three (n : Nat) (h : 100 ≤ n) :
    3 ≤ (Nat.toDigits 10 n).length := by
  obtain ⟨k, rfl⟩ : ∃ k, n = k + 2 := ⟨n - 2, by omega⟩
  have h3 : ¬ (k + 2) / 10 = 0 := by omega
  have h4 : ¬ (k + 2) / 10 / 10 = 0 := by omega
  unfold Nat.toDigits
  simp only [Nat.toDigitsCore, h3, h4, if_false]
  split_ifs
  · simp
  · exact le_trans (by simp) (toDigitsCore_length_ge k _ _)

/-- `%02d` of a number below 100 is its two decimal digits. -/
theorem fmt02d_lt_hundred (n : Nat) (h : n < 100) : fmt02d (n : Int) = twoDigits n := by
  have hneg : ¬ ((n : Int) < 0) := by omega
  unfold fmt02d twoDigits
  rw [if_neg hneg, Int.toNat_ofNat]
  show String.mk (List.replicate (2 - (Nat.repr n).length) '0') ++ Nat.repr n = _
  by_cases h10 : n < 10
  · have hd : n / 10 = 0 := by omega
    have hm : n % 10 = n := by omega
    simp [Nat.repr, toDigits_one_digit n h10, hd, hm, List.asString]
    rfl
  · have h10b : 10 ≤ n := by omega
    simp [Nat.repr, toDigits_two_digits n h10b h, List.asString]

/-- `%02d` of a number from 100 on is its plain decimal representation, of
three digits or more. -/
theorem fmt02d_ge_hundred (n : Nat) (h : 100 ≤ n) :
    fmt02d (n : Int) = toString n ∧ 3 ≤ (toString n).length := by
  have hneg : ¬ ((n : Int) < 0) := by omega
  have hlen : 3 ≤ (Nat.repr n).length := by
    simpa [Nat.repr, List.asString] using toDigits_length_ge_three n h
  refine ⟨?_, hlen⟩
  unfold fmt02d
  rw [if_neg hneg, Int.toNat_ofNat]
  show String.mk (List.replicate (2 - (Nat.repr n).length) '0') ++ Nat.repr n = Nat.repr n
  have hz : 2 - (Nat.repr n).length = 0 := by omega
  rw [hz]
  rfl

/-! ## Claims on the printed movie line -/

/-- C7, as stated, fails: a runtime of 6000 minutes is printed as `100:00`;
the hours take three digits, not exactly two. -/
theorem movieLine_hundred_hours :
    movieLine "Test Film" "Ann Director" 2020 6000
        = "Test Film by Ann Director in 2020, 100:00\n"
    ∧ (fmt02d ((6000 : Int).tdiv 60)).length = 3 := by
  decide

/-- C7, amended: for every title, director, release year and runtime of
`m ≥ 0` minutes the line printed is `title by director in year, H:MM`, where
`MM` is exactly two decimal digits of `m mod 60` and `H` is the hours
`m / 60` in decimal: exactly two digits when `m < 6000`, and the plain number,
of three digits or more, from 6000 minutes on; hours times 60 plus minutes is
`m` and the minutes are below 60. -/
theorem movieLine_format (title director : String) (year : Int) (m : Nat) :
    movieLine title director year (m : Int)
      = title ++ " by " ++ director ++ " in " ++ toString year ++ ", "
          ++ (if m < 6000 then twoDigits (m / 60) else toString (m / 60))
          ++ ":" ++ twoDigits (m % 60) ++ "\n"
    ∧ (twoDigits (m / 60)).length = 2 ∧ (twoDigits (m % 60)).length = 2
    ∧ (6000 ≤ m → 3 ≤ (toString (m / 60)).length)
    ∧ m / 60 * 60 + m % 60 = m ∧ m % 60 < 60 := by
  have hmin : fmt02d ((m : Int).tmod 60) = twoDigits (m % 60) := by
    have h := fmt02d_lt_hundred (m % 60) (by omega)
    rw [Int.ofNat_tmod] at h
    exact h
  have hhour : fmt02d ((m : Int).tdiv 60)
      = if m < 6000 then twoDigits (m / 60) else toString (m / 60) := by
    by_cases h : m < 6000
    · have h2 := fmt02d_lt_hundred (m / 60) (by omega)
      rw [Int.ofNat_tdiv] at h2
      rw [if_pos h]
      exact h2
    · have h2 := (fmt02d_ge_hundred (m / 60) (by omega)).1
      rw [Int.ofNat_tdiv] at h2
      rw [if_neg h]
      exact h2
  refine ⟨?_, rfl, rfl, ?_, ?_, ?_⟩
  · unfold movieLine
    rw [hmin, hhour]
  · intro h
    exact (fmt02d_ge_hundred (m / 60) (by omega)).2
  · omega
  · omega

/-- The end-to-end example of the specification: (`Test Film`, `Ann Director`,
2020, 90) is printed as `Test Film by Ann Director in 2020, 01:30`. -/
theorem movieLine_test_film :
    movieLine "Test Film" "Ann Director" 2020 90
      = "Test Film by Ann Director in 2020, 01:30\n" := by
  decide

/-! ## Claims on the upsert of the bulk-ingestion path -/

theorem birthYear_after_update (l : List Person) (actor : String) (birthYear : Option Int)
    (hex : ∃ p ∈ l, p.name = actor) :
    (((l.map (fun p => if p.name = actor then { p with birth_year := birthYear } else p)).filter
        (fun p => p.name = actor)).map (fun p => p.birth_year)).head? = some birthYear := by
  induction l with
  | nil => simp at hex
  | cons q qs ih =>
    by_cases h : q.name = actor
    · simp [h]
    · have hex2 : ∃ p ∈ qs, p.name = actor := by
        obtain ⟨p, hp, hpn⟩ := hex
        rcases List.mem_cons.mp hp with rfl | hp2
        · exact absurd hpn h
        · exact ⟨p, hp2, hpn⟩
      simpa [h] using ih hex2

/-- C8, as stated, fails: Bob Actor is recorded with birth year 1980; the
actor loop runs for him with a birth-year lookup that found nothing, and his
birth year is NULL afterwards. -/
theorem saveMovieActor_unknown_year_erases :
    birthYearOf castStore "Bob Actor" = some (some 1980)
    ∧ fetchedBirthYear (.ok 0) = none
    ∧ (saveMovieActor 3 castStore 1 "Bob Actor" (.ok 0)).1.people
        = [⟨1, "Ann Director", none⟩, ⟨2, "Bob Actor", none⟩]
    ∧ birthYearOf (saveMovieActor 3 castStore 1 "Bob Actor" (.ok 0)).1 "Bob Actor"
        = some none := by
  decide

/-- C8, amended: on a name conflict the actor upsert of `saveMovieToDB` sets
the birth year of the existing person to the value supplied, NULL included:
for every store with a person of that name and values that fit the column
types, the upsert succeeds, changes nothing but the birth year of the people
with that name, and the birth year recorded for the name afterwards is the
one supplied; the movies and the cast links are unchanged. -/
theorem upsertActor_conflict_overwrites (newId : Nat) (s : Store) (actor : String)
    (birthYear : Option Int) (hex : ∃ p ∈ s.people, p.name = actor)
    (hfit : checkPersonValues actor birthYear = none) :
    ∃ s1 rows, upsertActor newId s actor birthYear = .ok (s1, rows)
      ∧ s1.people = s.people.map
          (fun p => if p.name = actor then { p with birth_year := birthYear } else p)
      ∧ s1.movies = s.movies ∧ s1.movie_actors = s.movie_actors
      ∧ rows = selectPersonIdByName s actor
      ∧ birthYearOf s1 actor = some birthYear := by
  have hany : s.people.any (fun p => decide (p.name = actor)) = true := by
    obtain ⟨p, hp, hpn⟩ := hex
    exact List.any_eq_true.mpr ⟨p, hp, by simpa using hpn⟩
  refine ⟨⟨s.people.map
      (fun p => if p.name = actor then { p with birth_year := birthYear } else p),
      s.movies, s.movie_actors⟩,
    selectPersonIdByName s actor, ?_, rfl, rfl, rfl, rfl, ?_⟩
  · simp only [upsertActor, hfit, hany, if_true]
  · exact birthYear_after_update s.people actor birthYear hex

/-- C8, witness: upserting Bob Actor, recorded with 1980, with an unknown
birth year leaves NULL. -/
theorem upsertActor_conflict_overwrites_witness :
    ∃ s1 rows, upsertActor 3 castStore "Bob Actor" none = .ok (s1, rows)
      ∧ s1.people = castStore.people.map
          (fun p => if p.name = "Bob Actor" then { p with birth_year := none } else p)
      ∧ s1.movies = castStore.movies ∧ s1.movie_actors = castStore.movie_actors
      ∧ rows = selectPersonIdByName castStore "Bob Actor"
      ∧ birthYearOf s1 "Bob Actor" = some none :=
  upsertActor_conflict_overwrites 3 castStore "Bob Actor" none
    ⟨⟨2, "Bob Actor", some 1980⟩, by decide, rfl⟩ (by decide)

/-! ## Claims on `addPerson` -/

/-- Everything the year-of-birth loop prints is its prompt or its error
message. -/
theorem readYearOfBirth_output (sscanInt : String → Option Int) (lines : List String) :
    ∀ x ∈ (readYearOfBirth sscanInt lines).2,
      x = "Enter year of birth (or press Enter to skip): "
      ∨ x = "Error: Invalid year of birth. Please enter a valid number.\n" := by
  induction lines with
  | nil => intro x hx; simp [readYearOfBirth] at hx; exact Or.inl hx
  | cons input rest ih =>
    intro x hx
    unfold readYearOfBirth at hx
    split_ifs at hx with h1
    · simp at hx; exact Or.inl hx
    · split at hx
      · split_ifs at hx
        · simp only [List.mem_cons] at hx
          rcases hx with h | h | h
          · exact Or.inl h
          · exact Or.inr h
          · exact ih x h
        · simp at hx; exact Or.inl hx
      · simp only [List.mem_cons] at hx
        rcases hx with h | h | h
        · exact Or.inl h
        · exact Or.inr h
        · exact ih x h

/-- The message `Person '<name>' already exists in the database.` differs
from every message that starts with another letter than `P`. -/
theorem existsLine_ne (name rest : String) (c : Char) (hc : c ≠ 'P') :
    "Person '" ++ name ++ "' already exists in the database.\n" ≠ String.mk [c] ++ rest := by
  intro h
  have h2 := congrArg String.data h
  simp [String.data_append] at h2
  exact hc h2.1.symm

/-- C9, what the code does: when the store already has a person with the
entered name, `addPerson` leaves the store unchanged, but what it prints is
the insertion error `Error inserting person: sql: no rows in result set`
(the statement returns no row on a conflict, so `Scan` fails with
`sql.ErrNoRows` before `personID == 0` is tested), not the message `Person
'<name>' already exists in the database.`. -/
theorem addPerson_conflict_insert_error (sscanInt : String → Option Int) (newId : Nat)
    (s : Store) (name : String) (yearLines : List String)
    (hn : name ≠ "") (hex : ∃ p ∈ s.people, p.name = name)
    (hfit : checkPersonValues name
      (if (readYearOfBirth sscanInt yearLines).1 > 0
        then some (readYearOfBirth sscanInt yearLines).1 else none) = none) :
    addPerson sscanInt newId s name yearLines
      = (s, "Enter person's name: " :: (readYearOfBirth sscanInt yearLines).2
              ++ ["Error inserting person: sql: no rows in result set\n"])
    ∧ "Person '" ++ name ++ "' already exists in the database.\n"
        ∉ (addPerson sscanInt newId s name yearLines).2 := by
  have hany : s.people.any (fun p => decide (p.name = name)) = true := by
    obtain ⟨p, hp, hpn⟩ := hex
    exact List.any_eq_true.mpr ⟨p, hp, by simpa using hpn⟩
  have e : addPerson sscanInt newId s name yearLines
      = (s, "Enter person's name: " :: (readYearOfBirth sscanInt yearLines).2
              ++ ["Error inserting person: sql: no rows in result set\n"]) := by
    simp only [addPerson, hn, if_false, insertPersonDoNothing, hfit, hany, if_true,
      queryRowScan, DbError.text]
    rfl
  refine ⟨e, ?_⟩
  rw [e]
  intro hmem
  simp only [List.cons_append, List.mem_cons, List.mem_append, List.mem_singleton,
    List.not_mem_nil, or_false] at hmem
  rcases hmem with h | h | h
  · exact existsLine_ne name "nter person's name: " 'E' (by decide) h
  · rcases readYearOfBirth_output sscanInt yearLines _ h with h2 | h2
    · exact existsLine_ne name "nter year of birth (or press Enter to skip): " 'E'
        (by decide) h2
    · exact existsLine_ne name "rror: Invalid year of birth. Please enter a valid number.\n"
        'E' (by decide) h2
  · exact existsLine_ne name "rror inserting person: sql: no rows in result set\n" 'E'
      (by decide) h

/-- C9, witness: Bob Actor is in `castStore`; adding him again, skipping the
year of birth, prints the insertion error. -/
theorem addPerson_conflict_insert_error_witness :
    addPerson (fun _ => none) 3 castStore "Bob Actor" [""]
      = (castStore, ["Enter person's name: ",
          "Enter year of birth (or press Enter to skip): ",
          "Error inserting person: sql: no rows in result set\n"]) :=
  (addPerson_conflict_insert_error (fun _ => none) 3 castStore "Bob Actor" [""]
    (by decide) ⟨⟨2, "Bob Actor", some 1980⟩, by decide, rfl⟩ (by decide)).1

/-! ## Claims on the actor lines of the verbose listing -/

/-- An absent birth year is printed as `(birth year missing)`. -/
theorem displayActorLine_birth_year_absent (releaseYear : Int) (actor : String) :
    displayActorLine releaseYear actor none
      = "        - " ++ actor ++ " (birth year missing)\n" := by
  simp [displayActorLine, ageColumn, actorLine]

/-- A birth year other than the release year is printed as the age, the
release year minus the birth year. -/
theorem displayActorLine_age (releaseYear b : Int) (actor : String) (h : b ≠ releaseYear) :
    displayActorLine releaseYear actor (some b)
      = "        - " ++ actor ++ " at age " ++ toString (releaseYear - b) ++ "\n" := by
  have h2 : ¬ releaseYear - b = 0 := by omega
  simp [displayActorLine, ageColumn, actorLine, h2]

/-- C10, what the code does: an actor whose birth year is present and equal
to the release year of the movie is printed as `<name> (birth year missing)`,
not as `<name> at age 0`: the age 0 is taken for the mark of a missing birth
year. -/
theorem displayActorLine_born_in_release_year (releaseYear : Int) (actor : String) :
    displayActorLine releaseYear actor (some releaseYear)
      = "        - " ++ actor ++ " (birth year missing)\n"
    ∧ displayActorLine releaseYear actor (some releaseYear)
      ≠ "        - " ++ actor ++ " at age " ++ toString (releaseYear - releaseYear) ++ "\n" := by
  have e : displayActorLine releaseYear actor (some releaseYear)
      = "        - " ++ actor ++ " (birth year missing)\n" := by
    simp [displayActorLine, ageColumn, actorLine]
  refine ⟨e, ?_⟩
  rw [e, sub_self]
  intro h
  have h2 := congrArg String.data h
  simp [String.data_append] at h2

/-! ## Lemmas on the ordering clause -/

/-- The query text of `listMovies`: base query, WHERE clause, ORDER BY
clause. -/
theorem listMoviesQuery_text (titleRegex directorRegex actorRegex : Option String)
    (orderBy : String) :
    (listMoviesQuery titleRegex directorRegex actorRegex orderBy).1
      = listMoviesBaseQuery ++ specWhereClause titleRegex directorRegex actorRegex
          ++ orderByClause orderBy := by
  cases titleRegex <;> cases directorRegex <;> cases actorRegex <;> rfl

/-- The query text of `listMoviesVerbose` is that of `listMovies`. -/
theorem listMoviesVerboseQuery_text (titleRegex directorRegex actorRegex : Option String)
    (orderBy : String) :
    (listMoviesVerboseQuery titleRegex directorRegex actorRegex orderBy).1
      = listMoviesBaseQuery ++ specWhereClause titleRegex directorRegex actorRegex
          ++ orderByClause orderBy := by
  cases titleRegex <;> cases directorRegex <;> cases actorRegex <;> rfl

/-- The WHERE clause depends only on which patterns are present. -/
theorem specWhereClause_presence (titleRegex directorRegex actorRegex : Option String) :
    specWhereClause titleRegex directorRegex actorRegex
      = specWhereClause (if titleRegex.isSome then some "" else none)
          (if directorRegex.isSome then some "" else none)
          (if actorRegex.isSome then some "" else none) := by
  cases titleRegex <;> cases directorRegex <;> cases actorRegex <;> rfl

set_option maxRecDepth 1000000 in
/-- In each of the eight WHERE clauses followed by each of the three ORDER BY
clauses, the text `ORDER BY` occurs once. -/
theorem orderBy_occurs_once :
    ∀ tb db ab : Bool, ∀ clause ∈ [" ORDER BY m.length_minutes ASC, m.title",
        " ORDER BY m.length_minutes DESC, m.title", " ORDER BY m.title"],
      occurrences "ORDER BY" (listMoviesBaseQuery
        ++ specWhereClause (if tb then some "" else none) (if db then some "" else none)
            (if ab then some "" else none) ++ clause) = 1 := by
  decide

/-- The `switch orderBy` writes ` ORDER BY ` and the sort keys of the mode,
separated by commas. -/
theorem orderByClause_keys (orderBy : String) :
    orderByClause orderBy = " ORDER BY " ++ ", ".intercalate (specOrderKeys orderBy) := by
  unfold orderByClause specOrderKeys
  split_ifs <;> rfl

theorem orderByClause_mem (orderBy : String) :
    orderByClause orderBy ∈ [" ORDER BY m.length_minutes ASC, m.title",
        " ORDER BY m.length_minutes DESC, m.title", " ORDER BY m.title"] := by
  unfold orderByClause
  split_ifs <;> simp

/-! ## Claims on the ordering clause -/

/-- C11: for every ordering-mode string, the query of `listMovies` and of
`listMoviesVerbose` ends with ` ORDER BY ` followed by the sort keys of the
mode, and `ORDER BY` occurs exactly once in it; the keys are
`m.length_minutes ASC, m.title` for `length_asc`, `m.length_minutes DESC,
m.title` for `length_desc` and `m.title` for every other string, so in all
three modes the last sort key is `m.title`. -/
theorem listMoviesQuery_order_by (titleRegex directorRegex actorRegex : Option String)
    (orderBy : String) :
    (listMoviesQuery titleRegex directorRegex actorRegex orderBy).1
      = listMoviesBaseQuery ++ specWhereClause titleRegex directorRegex actorRegex
          ++ (" ORDER BY " ++ ", ".intercalate (specOrderKeys orderBy))
    ∧ (listMoviesVerboseQuery titleRegex directorRegex actorRegex orderBy).1
      = listMoviesBaseQuery ++ specWhereClause titleRegex directorRegex actorRegex
          ++ (" ORDER BY " ++ ", ".intercalate (specOrderKeys orderBy))
    ∧ occurrences "ORDER BY"
        (listMoviesQuery titleRegex directorRegex actorRegex orderBy).1 = 1
    ∧ occurrences "ORDER BY"
        (listMoviesVerboseQuery titleRegex directorRegex actorRegex orderBy).1 = 1
    ∧ ", ".intercalate (specOrderKeys orderBy)
        = (if orderBy = "length_asc" then "m.length_minutes ASC, m.title"
           else if orderBy = "length_desc" then "m.length_minutes DESC, m.title"
           else "m.title")
    ∧ (specOrderKeys orderBy).getLast? = some "m.title" := by
  have hocc : occurrences "ORDER BY" (listMoviesBaseQuery
      ++ specWhereClause titleRegex directorRegex actorRegex ++ orderByClause orderBy) = 1 := by
    rw [specWhereClause_presence]
    exact orderBy_occurs_once titleRegex.isSome directorRegex.isSome actorRegex.isSome
      (orderByClause orderBy) (orderByClause_mem orderBy)
  refine ⟨?_, ?_, ?_, ?_, ?_, ?_⟩
  · rw [listMoviesQuery_text, orderByClause_keys]
  · rw [listMoviesVerboseQuery_text, orderByClause_keys]
  · rw [listMoviesQuery_text]; exact hocc
  · rw [listMoviesVerboseQuery_text]; exact hocc
  · unfold specOrderKeys
    split_ifs <;> rfl
  · unfold specOrderKeys
    split_ifs <;> rfl

/-! ## Lemmas on unknown commands and flags -/

/-- The flag loop stops only with a printed message or with the panic of
`regexp.MustCompile` on a pattern it does not accept. -/
theorem parseListFlags_error_cases (compiles : String → Bool) :
    ∀ (n : Nat) (rest : List String) (st : ListFlags) (a : Action),
      rest.length ≤ n → parseListFlags compiles rest st = .error a →
      (∃ msg, a = .print msg) ∨ (∃ p, compiles p = false ∧ a = .regexPanic p) := by
  intro n
  induction n with
  | zero =>
    intro rest st a hlen h
    have hnil : rest = [] := List.eq_nil_of_length_eq_zero (by omega)
    subst hnil
    simp [parseListFlags] at h
  | succ n ih =>
    intro rest st a hlen h
    rcases rest with _ | ⟨arg, _ | ⟨next, tail⟩⟩
    · simp [parseListFlags] at h
    · simp only [parseListFlags] at h
      split_ifs at h <;>
        first
        | (cases h; done)
        | (cases h; exact Or.inl ⟨_, rfl⟩)
    · have hl1 : (next :: tail).length ≤ n := by simp at hlen ⊢; omega
      have hl2 : tail.length ≤ n := by simp at hlen ⊢; omega
      simp only [parseListFlags] at h
      split_ifs at h <;>
        first
        | exact ih _ _ _ hl1 h
        | exact ih _ _ _ hl2 h
        | (cases h; exact Or.inl ⟨_, rfl⟩)
        | (cases h; exact Or.inr ⟨_, by simp_all, rfl⟩)

/-- An argument read in flag position that is not a flag of the list command
stops the loop (if nothing stops it earlier). -/
theorem parseListFlags_unknown_flag (compiles : String → Bool) (x : String)
    (hv : x ≠ "-v") (ht : x ≠ "-t") (hd : x ≠ "-d") (ha : x ≠ "-a")
    (hla : x ≠ "-la") (hld : x ≠ "-ld") :
    ∀ (n : Nat) (rest : List String) (st : ListFlags),
      rest.length ≤ n → x ∈ flagTokens rest →
      ∀ f, parseListFlags compiles rest st ≠ .ok f := by
  intro n
  induction n with
  | zero =>
    intro rest st hlen hmem
    have hnil : rest = [] := List.eq_nil_of_length_eq_zero (by omega)
    subst hnil
    simp [flagTokens] at hmem
  | succ n ih =>
    intro rest st hlen hmem f
    rcases rest with _ | ⟨arg, _ | ⟨next, tail⟩⟩
    · simp [flagTokens] at hmem
    · simp only [flagTokens, List.mem_singleton] at hmem
      subst hmem
      simp [parseListFlags, hv, ht, hd, ha, hla, hld]
    · have hl1 : (next :: tail).length ≤ n := by simp at hlen ⊢; omega
      have hl2 : tail.length ≤ n := by simp at hlen ⊢; omega
      simp only [flagTokens] at hmem
      simp only [parseListFlags]
      split_ifs at hmem ⊢ <;> simp_all

/-- A `-t`, `-d` or `-a` read as the last argument stops the loop (if nothing
stops it earlier). -/
theorem parseListFlags_missing_pattern (compiles : String → Bool) :
    ∀ (n : Nat) (rest : List String) (st : ListFlags),
      rest.length ≤ n → missingPattern rest = true →
      ∀ f, parseListFlags compiles rest st ≠ .ok f := by
  intro n
  induction n with
  | zero =>
    intro rest st hlen hmem
    have hnil : rest = [] := List.eq_nil_of_length_eq_zero (by omega)
    subst hnil
    simp [missingPattern] at hmem
  | succ n ih =>
    intro rest st hlen hmem f
    rcases rest with _ | ⟨arg, _ | ⟨next, tail⟩⟩
    · simp [missingPattern] at hmem
    · simp only [missingPattern, decide_eq_true_eq] at hmem
      simp only [parseListFlags]
      split_ifs <;> simp_all
    · have hl1 : (next :: tail).length ≤ n := by simp at hlen ⊢; omega
      have hl2 : tail.length ≤ n := by simp at hlen ⊢; omega
      simp only [missingPattern] at hmem
      simp only [parseListFlags]
      split_ifs at hmem ⊢ <;> simp_all

/-! ## Claims on unknown commands and flags -/

/-- C12, as stated, fails: in `l -t ( -x` the argument `-x` is read in flag
position and is not a flag of the list command, but `regexp.MustCompile`
panics on the pattern `(` before `-x` is reached; `parseCommand` prints no
error message. -/
theorem parseCommand_panic_before_unknown_flag :
    parseArgs "l -t ( -x" = ["l", "-t", "(", "-x"]
    ∧ "-x" ∈ flagTokens ["-t", "(", "-x"] ∧ "-x" ∉ listFlagNames
    ∧ plainPattern "(" = false
    ∧ parseCommand plainPattern "l -t ( -x" = Action.regexPanic "("
    ∧ ∀ msg, parseCommand plainPattern "l -t ( -x" ≠ Action.print msg := by
  have e : parseCommand plainPattern "l -t ( -x" = Action.regexPanic "(" := by decide
  refine ⟨by decide, by decide, by decide, by decide, e, ?_⟩
  intro msg h
  rw [e] at h
  cases h

/-- C12, amended: when the first argument is not one of `l`, `a`, `d`,
`parseCommand` prints `Unknown command: <command>`; when in a list command an
argument read in flag position is not one of `-v`, `-t`, `-d`, `-a`, `-la`,
`-ld`, or the last flag read is a `-t`, `-d` or `-a` with no argument after
it, `parseCommand` ends with a rejection of the flag loop that the line
accounts for: it prints an error (on the unknown flag, on the missing
pattern, or on `-la` and `-ld` together), unless `regexp.MustCompile` panics
on a pattern of that line which it does not accept; when every pattern of
the line compiles, an error is printed.  In all these cases none of
`listMovies`, `listMoviesVerbose`, `addPerson`, `addMovie`, `deletePerson` is
called. -/
theorem parseCommandArgs_unknown_rejected (compiles : String → Bool) (args : List String)
    (h : UnknownCommandOrFlag args) :
    (∀ command rest, args = command :: rest → command ≠ "l" →
        parseCommandArgs compiles args = .print ("Unknown command: " ++ command ++ "\n"))
    ∧ (∀ rest, args = "l" :: rest →
        ListCommandRejection compiles rest "title" (parseCommandArgs compiles args))
    ∧ ((∃ msg, parseCommandArgs compiles args = .print msg)
        ∨ (∃ p ∈ patternTokens args.tail, compiles p = false
            ∧ parseCommandArgs compiles args = .regexPanic p))
    ∧ ((∀ p ∈ patternTokens args.tail, compiles p = true) →
        ∃ msg, parseCommandArgs compiles args = .print msg)
    ∧ (parseCommandArgs compiles args).callsOperation = false
    ∧ (parseCommandArgs compiles args).isListing = false := by
  rcases args with _ | ⟨command, rest⟩
  · exact absurd h (by simp [UnknownCommandOrFlag])
  · rcases h with ⟨h1, h2, h3⟩ | ⟨hl, hflag⟩
    · have e : parseCommandArgs compiles (command :: rest)
          = .print ("Unknown command: " ++ command ++ "\n") := by
        simp [parseCommandArgs, h1, h2, h3]
      rw [e]
      refine ⟨fun _ _ hargs _ => ?_, fun _ hargs => ?_, Or.inl ⟨_, rfl⟩, fun _ => ⟨_, rfl⟩,
        rfl, rfl⟩
      · cases hargs
        rfl
      · cases hargs
        exact absurd rfl h1
    · subst hl
      have hno : ∀ f, parseListFlags compiles rest ⟨false, none, none, none, "title"⟩
          ≠ .ok f := by
        rcases hflag with ⟨x, hx, hnot⟩ | hmiss
        · simp only [listFlagNames, List.mem_cons, List.mem_singleton, List.not_mem_nil,
            or_false, not_or] at hnot
          exact parseListFlags_unknown_flag compiles x hnot.1 hnot.2.1 hnot.2.2.1
            hnot.2.2.2.1 hnot.2.2.2.2.1 hnot.2.2.2.2.2 rest.length rest _ (le_refl _) hx
        · exact parseListFlags_missing_pattern compiles rest.length rest _ (le_refl _) hmiss
      cases hres : parseListFlags compiles rest ⟨false, none, none, none, "title"⟩ with
      | ok f => exact absurd hres (hno f)
      | error a =>
        obtain ⟨e, hrej⟩ := parseCommandArgs_list_error compiles rest a hres
        rw [e]
        have hpp := ListCommandRejection.print_or_panic compiles rest _ a hrej
        refine ⟨fun _ _ hargs hnl => ?_, fun _ hargs => ?_, hpp, fun hall => ?_,
          (ListCommandRejection.no_operation compiles rest _ a hrej).1,
          (ListCommandRejection.no_operation compiles rest _ a hrej).2⟩
        · cases hargs
          exact absurd rfl hnl
        · cases hargs
          exact hrej
        · rcases hpp with hp | ⟨p, hp, hc, _⟩
          · exact hp
          · rw [hall p hp] at hc
            cases hc

/-- C12, witness: in `l -t Star -x` the pattern `Star` compiles and `-x` is
not a flag: the unknown-flag message is printed and no operation is called;
`x` is an unknown command. -/
theorem parseCommandArgs_unknown_rejected_witness :
    (∃ msg, parseCommandArgs plainPattern ["l", "-t", "Star", "-x"] = Action.print msg)
    ∧ (parseCommandArgs plainPattern ["l", "-t", "Star", "-x"]).callsOperation = false
    ∧ parseCommandArgs plainPattern ["l", "-t", "Star", "-x"]
        = Action.print "Unknown flag: -x\n"
    ∧ parseCommandArgs plainPattern ["x"] = Action.print ("Unknown command: " ++ "x" ++ "\n") :=
  have h := parseCommandArgs_unknown_rejected plainPattern ["l", "-t", "Star", "-x"]
    (Or.inr ⟨rfl, Or.inl ⟨"-x", by decide, by decide⟩⟩)
  ⟨h.2.2.2.1 (by decide), h.2.2.2.2.1, by decide,
   (parseCommandArgs_unknown_rejected plainPattern ["x"]
      (Or.inl ⟨by decide, by decide, by decide⟩)).1 "x" [] rfl (by decide)⟩

/-! ## Lemmas on the order of the listing -/

/-- Two rows of equal runtime stand in the order of their titles, in each of
the three ordering modes. -/
theorem rowPrecedes_equal_length (collate : String → String → Bool) (orderBy : String)
    (x y : MovieRow) (hlen : x.length = y.length)
    (h : rowPrecedes collate orderBy x y = true) : collate x.title y.title = true := by
  unfold rowPrecedes at h
  split_ifs at h
  · simpa [hlen] using h
  · simpa [hlen] using h
  · exact h

/-- The rows of the listing are sorted by the ORDER BY clause, whenever the
order of the database on titles is total and transitive. -/
theorem selectMovieRows_sorted (regexMatch collate : String → String → Bool)
    (htotal : ∀ a b, collate a b = true ∨ collate b a = true)
    (htrans : ∀ a b c, collate a b = true → collate b c = true → collate a c = true)
    (s : Store) (titleRegex directorRegex actorRegex : Option String) (orderBy : String) :
    List.Sorted (fun x y => rowPrecedes collate orderBy x y = true)
      (selectMovieRows regexMatch collate s titleRegex directorRegex actorRegex orderBy) := by
  haveI : IsTotal MovieRow (fun x y => rowPrecedes collate orderBy x y = true) := by
    constructor
    intro x y
    unfold rowPrecedes
    split_ifs
    · rcases lt_trichotomy x.length y.length with h | h | h
      · left; simp [h]
      · rcases htotal x.title y.title with h2 | h2
        · left; simp [h, h2]
        · right; simp [h, h2]
      · right; simp [h]
    · rcases lt_trichotomy x.length y.length with h | h | h
      · right; simp [h]
      · rcases htotal x.title y.title with h2 | h2
        · left; simp [h, h2]
        · right; simp [h, h2]
      · left; simp [h]
    · exact htotal x.title y.title
  haveI : IsTrans MovieRow (fun x y => rowPrecedes collate orderBy x y = true) := by
    constructor
    intro x y z hxy hyz
    unfold rowPrecedes at hxy hyz ⊢
    split_ifs at hxy hyz ⊢
    · simp only [Bool.or_eq_true, Bool.and_eq_true, decide_eq_true_eq] at hxy hyz ⊢
      rcases hxy with h1 | ⟨h1, c1⟩ <;> rcases hyz with h2 | ⟨h2, c2⟩
      · left; omega
      · left; omega
      · left; omega
      · right; exact ⟨by omega, htrans _ _ _ c1 c2⟩
    · simp only [Bool.or_eq_true, Bool.and_eq_true, decide_eq_true_eq] at hxy hyz ⊢
      rcases hxy with h1 | ⟨h1, c1⟩ <;> rcases hyz with h2 | ⟨h2, c2⟩
      · left; omega
      · left; omega
      · left; omega
      · right; exact ⟨by omega, htrans _ _ _ c1 c2⟩
    · exact htrans _ _ _ hxy hyz
  exact List.sorted_insertionSort _ _

/-- In the listing, of two rows of equal runtime the one printed first has
the title that comes first. -/
theorem selectMovieRows_equal_length_by_title (regexMatch collate : String → String → Bool)
    (htotal : ∀ a b, collate a b = true ∨ collate b a = true)
    (htrans : ∀ a b c, collate a b = true → collate b c = true → collate a c = true)
    (s : Store) (titleRegex directorRegex actorRegex : Option String) (orderBy : String) :
    List.Pairwise (fun x y => x.length = y.length → collate x.title y.title = true)
      (selectMovieRows regexMatch collate s titleRegex directorRegex actorRegex orderBy) := by
  have h := selectMovieRows_sorted regexMatch collate htotal htrans s titleRegex directorRegex
    actorRegex orderBy
  exact List.Pairwise.imp (fun hxy hlen => rowPrecedes_equal_length collate orderBy _ _ hlen hxy) h

/-! ## Lemmas on the actors displayed under a movie -/

/-- In a store where no other movie has the title of `m`, the movies the
query of `displayActorsForMovie` joins to a cast link are `m` itself when the
link is a link of `m`, and none otherwise. -/
theorem moviesOfLink_unique_title (s : Store) (hwf : s.WellFormed) (m : Movie)
    (hm : m ∈ s.movies) (huniq : ∀ m2 ∈ s.movies, m2.title = m.title → m2 = m)
    (ma : MovieActor) :
    s.movies.filter (fun m2 => decide (ma.movie_id = m2.id) && decide (m2.title = m.title))
      = if ma.movie_id = m.id then [m] else [] := by
  have hnd : s.movies.Nodup := List.Nodup.of_map _ hwf.movies_pkey
  by_cases h : ma.movie_id = m.id
  · rw [if_pos h]
    have hf : s.movies.filter
          (fun m2 => decide (ma.movie_id = m2.id) && decide (m2.title = m.title))
        = s.movies.filter (fun m2 => m2 == m) := by
      apply List.filter_congr
      intro m2 hm2
      by_cases h2 : m2 = m
      · simp [h2, h]
      · have : ¬ m2.title = m.title := fun ht => h2 (huniq m2 hm2 ht)
        simp [h2, this]
    rw [hf]
    have hcount : List.count m s.movies = 1 := List.count_eq_one_of_mem hnd hm
    have hrep := List.filter_beq (l := s.movies) m
    rw [hrep, hcount]
    rfl
  · rw [if_neg h]
    rw [List.filter_eq_nil_iff]
    intro m2 hm2
    by_cases ht : m2.title = m.title
    · have := huniq m2 hm2 ht
      subst this
      simp [h]
    · simp [ht]


/-- One output per element that passes a test: as many outputs as elements
pass. -/
theorem flatMap_ite_singleton {α β : Type} (l : List α) (c : α → Bool) (x : β) :
    l.flatMap (fun a => if c a = true then [x] else [])
      = List.replicate (l.filter c).length x := by
  induction l with
  | nil => rfl
  | cons a l ih =>
    rw [List.flatMap_cons, ih]
    by_cases h : c a = true
    · simp [List.filter_cons, h, List.replicate_succ]
    · simp [List.filter_cons, h]

/-- In a well-formed store where no other movie has the title of `m`, the
query of `displayActorsForMovie` without actor pattern returns one row for a
person linked to `m` and none for any other person. -/
theorem actorRows_unique_title (s : Store) (hwf : s.WellFormed) (m : Movie)
    (hm : m ∈ s.movies) (huniq : ∀ m2 ∈ s.movies, m2.title = m.title → m2 = m)
    (p : Person) (x : String × Int) :
    (s.movie_actors.filter (fun ma => p.id = ma.actor_id)).flatMap (fun ma =>
        ((s.movies.filter
            (fun m2 => decide (ma.movie_id = m2.id) && decide (m2.title = m.title))).filter
          (fun _ => true)).map (fun _ => x))
      = if (⟨m.id, p.id⟩ : MovieActor) ∈ s.movie_actors then [x] else [] := by
  have hinner : ∀ ma : MovieActor,
      ((s.movies.filter
          (fun m2 => decide (ma.movie_id = m2.id) && decide (m2.title = m.title))).filter
        (fun _ => true)).map (fun _ => x)
        = if decide (ma.movie_id = m.id) = true then [x] else [] := by
    intro ma
    rw [moviesOfLink_unique_title s hwf m hm huniq ma]
    by_cases h : ma.movie_id = m.id
    · simp [h]
    · simp [h]
  simp only [hinner]
  rw [flatMap_ite_singleton, List.filter_filter]
  have hf : s.movie_actors.filter
        (fun ma => decide (ma.movie_id = m.id) && decide (p.id = ma.actor_id))
      = s.movie_actors.filter (fun ma => decide (m.id = ma.movie_id ∧ ma.actor_id = p.id)) := by
    apply List.filter_congr
    intro ma _
    by_cases h1 : ma.movie_id = m.id
    · by_cases h2 : p.id = ma.actor_id
      · simp [h1, h2]
      · have : ¬ ma.actor_id = p.id := fun h => h2 h.symm
        simp [h1, h2, this]
    · have : ¬ m.id = ma.movie_id := fun h => h1 h.symm
      simp [h1, this]
  rw [hf, linkCount_eq s.movie_actors hwf.movie_actors_pkey m.id p.id]
  by_cases h : (⟨m.id, p.id⟩ : MovieActor) ∈ s.movie_actors
  · simp [h]
  · simp [h]

/-- When no other movie of a well-formed store has the title of `m`, the
actors `listMoviesVerbose` displays under `m` without actor pattern are
exactly the people a cast link ties to `m`. -/
theorem displayedActors_unique_title (regexMatch : String → String → Bool) (s : Store)
    (hwf : s.WellFormed) (m : Movie) (hm : m ∈ s.movies)
    (huniq : ∀ m2 ∈ s.movies, m2.title = m.title → m2 = m) :
    displayedActors regexMatch s m none = linkedActors s m := by
  unfold displayedActors linkedActors selectActorsOfTitle
  simp only [actorRows_unique_title s hwf m hm huniq]
  generalize s.people = ps
  induction ps with
  | nil => rfl
  | cons p ps ih =>
    rw [List.flatMap_cons, List.map_append, ih]
    by_cases h : (⟨m.id, p.id⟩ : MovieActor) ∈ s.movie_actors
    · simp [List.filter_cons, h]
    · simp [List.filter_cons, h]

/-! ## Claims on the actors displayed under a movie -/

/-- C13, what the code does: `remakeStore` satisfies the constraints of the
schema and holds two movies titled `The Remake` by different directors, each
with one cast member.  `displayActorsForMovie` selects the actors by
`m.title = $2`, so the verbose listing prints both actors under each of the
two movies: under the movie of 1984 it displays `Early Actor` and `Late
Actor`, while the only person a cast link ties to that movie is `Early
Actor`. -/
theorem listMoviesVerbose_same_title_mixes_casts (regexMatch : String → String → Bool) :
    remakeStore.WellFormed
    ∧ listMoviesVerbose regexMatch codePointOrder remakeStore none none none "title"
      = ["The Remake by First Director in 1984, 02:17\n",
         "    Starring:\n",
         "        - Early Actor at age 25\n",
         "        - Late Actor at age -11\n",
         "The Remake by Second Director in 2021, 02:35\n",
         "    Starring:\n",
         "        - Early Actor at age 62\n",
         "        - Late Actor at age 26\n"]
    ∧ displayedActors regexMatch remakeStore ⟨1, "The Remake", 1, 1984, 137⟩ none
      = ["Early Actor", "Late Actor"]
    ∧ linkedActors remakeStore ⟨1, "The Remake", 1, 1984, 137⟩ = ["Early Actor"] := by
  refine ⟨⟨by decide, by decide, by decide, by decide, by decide, by decide, by decide,
    by decide⟩, ?_, ?_, by decide⟩
  · rfl
  · rfl

end MoviesApp
